import Mathlib

/-!
Verification development for the airline-market-analysis repository.

The analytics pipeline (src/data_processor.py, src/insights_generator.py,
src/app.py) is shallowly embedded below.  Conventions of the embedding:

* A pandas DataFrame is a `Frame`: a list of `Row`s plus the list of column
  names present.  A cell holds `Option` values; `none` plays the role of a
  missing value (NaN/NaT).  A column is present in a raw frame when some
  record carries the field (explicit nulls in raw records are not modelled,
  matching the scraper, which never emits them).
* Machine floats are modelled by exact rationals.  Comparisons against NaN
  are false, which the `Option` matches below reproduce.  The outlier filter
  `mean - 3*std <= p <= p mean + 3*std` is expressed as
  `(p - mean)^2 <= 9 * var`, an exact rephrasing that avoids the irrational
  square root (std = sqrt var, std >= 0).  Where a standard deviation itself
  is stored in an output (price volatility), the symbolic constructor
  `JVal.sqrtv v` denotes the square root of the variance `v`.
* Timestamps are represented already parsed (`pd.to_datetime` is external
  library functionality): a `DateTime` carries exactly the projections the
  code reads (ordering key, rendered date, month, weekday, hour, ISO week).
* Exceptions (`KeyError` on a missing column, `ValueError` on a length
  mismatch, division by zero) are modelled with `Except String`.
-/

/-! ## Generic list helpers (stable insertion sort, first-occurrence dedup) -/

/-- Insert `a` into `l`, before the first element `b` with `le a b`.  Used by
the stable insertion sort `insSort`. -/
def insertLe {α : Type} (le : α → α → Bool) (a : α) : List α → List α
  | [] => [a]
  | b :: bs => if le a b then a :: b :: bs else b :: insertLe le a bs

/-- Stable insertion sort: equal keys keep their original relative order
(this is what a stable sort such as pandas mergesort produces; pandas
groupby also sorts group keys ascending). -/
def insSort {α : Type} (le : α → α → Bool) : List α → List α
  | [] => []
  | a :: as => insertLe le a (insSort le as)

/-- Keep the first occurrence of each element, dropping later duplicates
(the behaviour of `DataFrame.drop_duplicates` and of `Series.unique`). -/
def dedupAux {α : Type} [DecidableEq α] (seen : List α) : List α → List α
  | [] => []
  | a :: as => if a ∈ seen then dedupAux seen as else a :: dedupAux (a :: seen) as

/-- First-occurrence deduplication. -/
def dedupFirst {α : Type} [DecidableEq α] (l : List α) : List α :=
  dedupAux [] l

/-- Boolean rational comparison, for sorting. -/
def qLe (a b : ℚ) : Bool := decide (a ≤ b)

/-- Boolean integer comparison, for sorting hour keys. -/
def zLe (a b : ℤ) : Bool := decide (a ≤ b)

/-- Lexicographic comparison of character lists by code point. -/
def charsLe : List Char → List Char → Bool
  | [], _ => true
  | _ :: _, [] => false
  | a :: as, b :: bs =>
    if a.toNat < b.toNat then true
    else if b.toNat < a.toNat then false
    else charsLe as bs

/-- Lexicographic string comparison (the order pandas uses for string group
keys); kernel-reducible, unlike the builtin `String` order. -/
def strLe (a b : String) : Bool := charsLe a.data b.data

/-- Boolean comparison with `false < true` (how pandas sorts a boolean
index). -/
def bLe (a b : Bool) : Bool := !a || b

/-! ### Kernel-reducible rational arithmetic

The Batteries implementations of `Rat.add`, `Rat.sub`, `Rat.mul` and
`Rat.inv` are `@[irreducible]`, so a concrete run of the pipeline could not
be evaluated by `decide`/`rfl` if the embedding used `+`, `-`, `*`, `/`
directly.  The wrappers below compute the same operations through `mkRat`
(which does reduce); the theorems `qadd_eq`, `qsub_eq`, `qmul_eq`,
`qdiv_eq`, `qsum_eq` and `qofNat_eq` below prove them equal to the standard
operations, so the embedding is faithful to ordinary rational (ideal float)
arithmetic. -/

def qadd (a b : ℚ) : ℚ := mkRat (a.num * b.den + b.num * a.den) (a.den * b.den)

def qneg (a : ℚ) : ℚ := mkRat (-a.num) a.den

def qsub (a b : ℚ) : ℚ := qadd a (qneg b)

def qmul (a b : ℚ) : ℚ := mkRat (a.num * b.num) (a.den * b.den)

def qinv (a : ℚ) : ℚ :=
  if a.num < 0 then mkRat (-(a.den : ℤ)) a.num.natAbs
  else mkRat (a.den : ℤ) a.num.natAbs

def qdiv (a b : ℚ) : ℚ := qmul a (qinv b)

def qsq (a : ℚ) : ℚ := qmul a a

def qsum (l : List ℚ) : ℚ := l.foldr qadd 0

def qofNat (n : ℕ) : ℚ := mkRat n 1

/-- Mean of the non-missing values of a column; `none` when there are none
(`Series.mean` with its default `skipna=True`). -/
def meanOpt (xs : List (Option ℚ)) : Option ℚ :=
  let v := xs.filterMap id
  if v.isEmpty then none else some (qdiv (qsum v) (qofNat v.length))

/-- Median of the non-missing values (`Series.median`): middle element of the
sorted values, or the average of the two middle elements. -/
def medianOpt (xs : List (Option ℚ)) : Option ℚ :=
  let v := insSort qLe (xs.filterMap id)
  if v.length = 0 then none
  else if v.length % 2 = 1 then some (v.getD (v.length / 2) 0)
  else some (qdiv (qadd (v.getD (v.length / 2 - 1) 0) (v.getD (v.length / 2) 0)) 2)

/-- Sample variance (`ddof=1`, matching `Series.std` squared) of the
non-missing values; `none` when fewer than two of them exist (this is the
NaN that `std()` yields on a single observation). -/
def varOpt (xs : List (Option ℚ)) : Option ℚ :=
  let v := xs.filterMap id
  if v.length < 2 then none
  else
    let m := qdiv (qsum v) (qofNat v.length)
    some (qdiv (qsum (v.map (fun x => qsq (qsub x m)))) (qsub (qofNat v.length) 1))

/-! ## Data model -/

/-- A parsed timestamp, carrying exactly the projections the code reads:
`ord` is an absolute ordering key (days since an epoch), `ymd` the
`strftime` rendering, `month` in 1..12, `weekday` with 0 = Monday
(pandas convention), `hour` in 0..23, `week` the ISO calendar week. -/
structure DateTime where
  ord : ℤ
  ymd : String
  month : ℤ
  weekday : ℤ
  hour : ℤ
  week : ℤ
deriving DecidableEq, Repr

/-- One record / one row of the working table.  Raw fields first, then the
columns derived by the Feature Pipeline; `none` is a missing value.  Fields
the pipeline never reads (flight number, origin, destination, duration,
arrival time) are omitted; row deduplication therefore identifies records
that differ only in those fields, which no claim depends on. -/
structure Row where
  price : Option ℚ := none
  airline : Option String := none
  route : Option String := none
  date : Option DateTime := none
  departure_time : Option DateTime := none
  day_of_week : Option String := none
  hour : Option ℤ := none
  available_seats : Option ℚ := none
  total_seats : Option ℚ := none
  demand_score : Option ℚ := none
  month : Option ℤ := none
  season : Option String := none
  price_category : Option String := none
  occupancy_rate : Option ℚ := none
  demand_level : Option String := none
  route_distance : Option ℚ := none
  price_per_km : Option ℚ := none
  peak_hour : Option String := none
  is_weekend : Option Bool := none
deriving DecidableEq, Repr

/-- A DataFrame: rows plus the names of the columns present. -/
structure Frame where
  rows : List Row
  cols : List String
deriving DecidableEq, Repr

/-- The empty DataFrame (`pd.DataFrame()`). -/
def emptyFrame : Frame := { rows := [], cols := [] }

/-- Candidate column names paired with their cell accessors, used to decide
which columns a raw batch has (`pd.DataFrame(raw_data)` creates a column
for every key occurring in some record). -/
def rawColPresent (name : String) (r : Row) : Bool :=
  match name with
  | "price" => r.price.isSome
  | "airline" => r.airline.isSome
  | "route" => r.route.isSome
  | "date" => r.date.isSome
  | "departure_time" => r.departure_time.isSome
  | "day_of_week" => r.day_of_week.isSome
  | "hour" => r.hour.isSome
  | "available_seats" => r.available_seats.isSome
  | "total_seats" => r.total_seats.isSome
  | "demand_score" => r.demand_score.isSome
  | "month" => r.month.isSome
  | "season" => r.season.isSome
  | "price_category" => r.price_category.isSome
  | "occupancy_rate" => r.occupancy_rate.isSome
  | "demand_level" => r.demand_level.isSome
  | "route_distance" => r.route_distance.isSome
  | "price_per_km" => r.price_per_km.isSome
  | "peak_hour" => r.peak_hour.isSome
  | "is_weekend" => r.is_weekend.isSome
  | _ => false

/-- The candidate raw column names, in a fixed order. -/
def rawColNames : List String :=
  ["price", "airline", "route", "date", "departure_time", "day_of_week",
   "hour", "available_seats", "total_seats", "demand_score", "month",
   "season", "price_category", "occupancy_rate", "demand_level",
   "route_distance", "price_per_km", "peak_hour", "is_weekend"]

/-- Build the DataFrame of a raw batch: a column exists when some record
carries the field. -/
def mkFrame (raw : List Row) : Frame :=
  { rows := raw,
    cols := rawColNames.filter (fun n => raw.any (rawColPresent n)) }

/-! ## DataProcessor (src/data_processor.py) -/

/-- Day names indexed by pandas weekday number (0 = Monday), as returned by
`Series.dt.day_name()`; also the canonical `day_order` of src/app.py. -/
def dayNames : List String :=
  ["Monday", "Tuesday", "Wednesday", "Thursday", "Friday", "Saturday", "Sunday"]

/-- The day name of a parsed timestamp. -/
def dayName (d : DateTime) : String :=
  dayNames.getD (d.weekday % 7).toNat "Monday"

/-- The Southern-Hemisphere season mapping of `_add_features`
(months 12,1,2 = Summer; 3,4,5 = Autumn; 6,7,8 = Winter; 9,10,11 = Spring);
any other month falls outside the dict, giving a missing value. -/
def seasonOfMonth (m : ℤ) : Option String :=
  if m = 12 ∨ m = 1 ∨ m = 2 then some "Summer"
  else if m = 3 ∨ m = 4 ∨ m = 5 then some "Autumn"
  else if m = 6 ∨ m = 7 ∨ m = 8 then some "Winter"
  else if m = 9 ∨ m = 10 ∨ m = 11 then some "Spring"
  else none

/-- `pd.cut(price, bins=[0,200,400,600,1000], labels=[...])`: right-closed
intervals, values outside (0, 1000] and missing values give NaN. -/
def priceCut (p : Option ℚ) : Option String :=
  match p with
  | none => none
  | some q =>
    if 0 < q ∧ q ≤ 200 then some "Budget"
    else if 200 < q ∧ q ≤ 400 then some "Economy"
    else if 400 < q ∧ q ≤ 600 then some "Premium"
    else if 600 < q ∧ q ≤ 1000 then some "Luxury"
    else none

/-- `pd.cut(occupancy_rate, bins=[0,0.5,0.7,0.9,1.0], labels=[...])`. -/
def demandCut (o : Option ℚ) : Option String :=
  match o with
  | none => none
  | some q =>
    if 0 < q ∧ q ≤ mkRat 1 2 then some "Low"
    else if mkRat 1 2 < q ∧ q ≤ mkRat 7 10 then some "Medium"
    else if mkRat 7 10 < q ∧ q ≤ mkRat 9 10 then some "High"
    else if mkRat 9 10 < q ∧ q ≤ 1 then some "Very High"
    else none

/-- `(total_seats - available_seats) / total_seats`; a zero seat count
would divide by zero (never produced by the data source), modelled as a
missing value. -/
def occupancyOf (total avail : Option ℚ) : Option ℚ :=
  match total, avail with
  | some t, some a => if t = 0 then none else some (qdiv (qsub t a) t)
  | _, _ => none

/-- The fixed route-distance dictionary of `_get_route_distances`. -/
def getRouteDistances (r : String) : Option ℚ :=
  if r = "SYD-MEL" ∨ r = "MEL-SYD" then some 713
  else if r = "SYD-BNE" ∨ r = "BNE-SYD" then some 732
  else if r = "SYD-PER" ∨ r = "PER-SYD" then some 3291
  else if r = "SYD-ADL" ∨ r = "ADL-SYD" then some 1165
  else if r = "SYD-CBR" ∨ r = "CBR-SYD" then some 244
  else if r = "MEL-BNE" ∨ r = "BNE-MEL" then some 1370
  else if r = "MEL-PER" ∨ r = "PER-MEL" then some 2708
  else if r = "MEL-ADL" ∨ r = "ADL-MEL" then some 640
  else if r = "BNE-PER" ∨ r = "PER-BNE" then some 3605
  else if r = "BNE-ADL" ∨ r = "ADL-BNE" then some 1600
  else if r = "PER-ADL" ∨ r = "ADL-PER" then some 2125
  else none

/-- `DataProcessor._clean_data`: deduplicate, parse timestamps (modelled as
already parsed), fill missing price with the batch median and missing
airline with "Unknown", then drop rows whose price lies outside
mean plus/minus 3 standard deviations.  `df["price"]` and `df["airline"]`
raise `KeyError` when the column is absent.  Note that the filter keeps a
row only when price, mean and std are all non-missing: with a single row the
sample std is NaN and every comparison is false, so nothing survives. -/
def cleanData (f : Frame) : Except String Frame :=
  let rows := dedupFirst f.rows
  if "price" ∉ f.cols then .error "KeyError: price" else
  let med := medianOpt (rows.map (fun r => r.price))
  let rows := rows.map (fun r => { r with price := r.price.orElse (fun _ => med) })
  if "airline" ∉ f.cols then .error "KeyError: airline" else
  let rows := rows.map (fun r => { r with airline := some (r.airline.getD "Unknown") })
  let m := meanOpt (rows.map (fun r => r.price))
  let v := varOpt (rows.map (fun r => r.price))
  let rows := rows.filter (fun r =>
    match r.price, m, v with
    | some p, some mu, some vr => decide (qsq (qsub p mu) ≤ qmul 9 vr)
    | _, _, _ => false)
  .ok { rows := rows, cols := f.cols }

/-- Step of `_add_features`: add day_of_week from the date column when not
already present (guarded on both columns). -/
def afDayOfWeek (f : Frame) : Frame :=
  if "day_of_week" ∉ f.cols ∧ "date" ∈ f.cols then
    { rows := f.rows.map (fun r => { r with day_of_week := r.date.map dayName }),
      cols := f.cols ++ ["day_of_week"] }
  else f

/-- Step of `_add_features`: add hour from the departure_time column when
not already present (guarded on both columns). -/
def afHour (f : Frame) : Frame :=
  if "hour" ∉ f.cols ∧ "departure_time" ∈ f.cols then
    { rows := f.rows.map (fun r => { r with hour := r.departure_time.map (fun d => d.hour) }),
      cols := f.cols ++ ["hour"] }
  else f

/-- Step of `_add_features`: add month and season from the date column
(guarded on date). -/
def afMonthSeason (f : Frame) : Frame :=
  if "date" ∈ f.cols then
    { rows := f.rows.map (fun r =>
        { r with
          month := r.date.map (fun d => d.month),
          season := r.date.bind (fun d => seasonOfMonth d.month) }),
      cols := f.cols ++ ["month", "season"] }
  else f

/-- Step of `_add_features`: price_category via `pd.cut` (the caller checks
the price column, whose absence raises `KeyError`). -/
def afPriceCategory (f : Frame) : Frame :=
  { rows := f.rows.map (fun r => { r with price_category := priceCut r.price }),
    cols := f.cols ++ ["price_category"] }

/-- Step of `_add_features`: occupancy_rate and demand_level (guarded on
both seat-count columns). -/
def afOccupancy (f : Frame) : Frame :=
  if "available_seats" ∈ f.cols ∧ "total_seats" ∈ f.cols then
    { rows := f.rows.map (fun r =>
        let occ := occupancyOf r.total_seats r.available_seats
        { r with occupancy_rate := occ, demand_level := demandCut occ }),
      cols := f.cols ++ ["occupancy_rate", "demand_level"] }
  else f

/-- Step of `_add_features`: route_distance via the fixed lookup (the caller
checks the route column, whose absence raises `KeyError`). -/
def afRouteDistance (f : Frame) : Frame :=
  { rows := f.rows.map (fun r =>
      { r with route_distance := r.route.bind getRouteDistances }),
    cols := f.cols ++ ["route_distance"] }

/-- `DataProcessor._add_features`: derive day_of_week, hour, month/season,
price_category, occupancy/demand_level and route_distance, in that order.
Every derivation except price_category and route_distance is guarded on its
source column; `df["price"]` (price_category) and `df["route"]`
(route_distance) are unguarded accesses and raise `KeyError` when the
column is missing. -/
def addFeatures (f : Frame) : Except String Frame :=
  let f := afDayOfWeek f
  let f := afHour f
  let f := afMonthSeason f
  if "price" ∉ f.cols then .error "KeyError: price" else
  let f := afPriceCategory f
  let f := afOccupancy f
  if "route" ∉ f.cols then .error "KeyError: route" else
  .ok (afRouteDistance f)

/-- Peak-hour classifier of `_calculate_metrics`; a missing hour fails both
range checks of the lambda, yielding "Off-Peak". -/
def peakOf (h : Option ℤ) : String :=
  match h with
  | some x => if (7 ≤ x ∧ x ≤ 9) ∨ (17 ≤ x ∧ x ≤ 19) then "Peak" else "Off-Peak"
  | none => "Off-Peak"

/-- The peak_hour and is_weekend steps of `_calculate_metrics`: peak_hour is
guarded on the hour column, is_weekend on day_of_week (`Series.isin` is
false on missing values). -/
def metricsTimePart (f : Frame) : Frame :=
  let f : Frame :=
    if "hour" ∈ f.cols then
      { rows := f.rows.map (fun r => { r with peak_hour := some (peakOf r.hour) }),
        cols := f.cols ++ ["peak_hour"] }
    else f
  if "day_of_week" ∈ f.cols then
    { rows := f.rows.map (fun r =>
        { r with
          is_weekend := some (decide (r.day_of_week = some "Saturday" ∨
            r.day_of_week = some "Sunday")) }),
      cols := f.cols ++ ["is_weekend"] }
  else f

/-- `DataProcessor._calculate_metrics`: price_per_km (guarded on
route_distance, with `df["price"]` an unguarded access), then peak_hour and
is_weekend. -/
def calculateMetrics (f : Frame) : Except String Frame :=
  if "route_distance" ∈ f.cols then
    if "price" ∉ f.cols then .error "KeyError: price" else
    let f : Frame :=
      { rows := f.rows.map (fun r =>
          { r with
            price_per_km := match r.price, r.route_distance with
              | some p, some d => if d = 0 then none else some (qdiv p d)
              | _, _ => none }),
        cols := f.cols ++ ["price_per_km"] }
    .ok (metricsTimePart f)
  else
    .ok (metricsTimePart f)

/-- The body of `process_flight_data` on a non-empty batch: build the
DataFrame, clean it, derive features, compute metrics. -/
def processPipeline (raw : List Row) : Except String Frame := do
  let df := mkFrame raw
  let df ← cleanData df
  let df ← addFeatures df
  calculateMetrics df

/-- `DataProcessor.process_flight_data` as a state transformer on
`self.processed_data`: an empty batch returns the empty DataFrame
immediately (leaving the stored reference untouched); otherwise the cleaned
and enriched table is stored and returned; an exception propagates without
storing.  The pair is (new state, result). -/
def processFlightData (self : Option Frame) (raw : List Row) :
    Option Frame × Except String Frame :=
  if raw.isEmpty then (self, .ok emptyFrame)
  else
    match processPipeline raw with
    | .ok df => (some df, .ok df)
    | .error e => (self, .error e)

/-! ## Trend estimator (InsightsGenerator._calculate_trend) -/

/-- The slope of the first-degree least-squares fit of `ys` against positions
0, 1, 2, ... (`np.polyfit(x, y, 1)[0]`), in its standard closed form
slope = (n * sum(x*y) - sum(x) * sum(y)) / (n * sum(x^2) - sum(x)^2);
for n >= 2 the denominator is positive. -/
def lsSlope (ys : List ℚ) : ℚ :=
  let n : ℚ := qofNat ys.length
  let xs : List ℚ := (List.range ys.length).map qofNat
  let sx := qsum xs
  let sy := qsum ys
  let sxy := qsum ((xs.zip ys).map (fun p => qmul p.1 p.2))
  let sxx := qsum (xs.map qsq)
  qdiv (qsub (qmul n sxy) (qmul sx sy)) (qsub (qmul n sxx) (qsq sx))

/-- `InsightsGenerator._calculate_trend`: fewer than 2 points yields
"insufficient_data"; otherwise classify the least-squares slope with the
fixed 0.1 threshold. -/
def calculateTrend (series : List ℚ) : String :=
  if series.length < 2 then "insufficient_data"
  else
    let slope := lsSlope series
    if slope > mkRat 1 10 then "increasing"
    else if slope < mkRat (-1) 10 then "decreasing"
    else "stable"

/-! ## Pivot engine (pandas pivot_table as used by src/app.py and
src/insights_generator.py) -/

/-- The two reducers the code uses in `pivot_table`. -/
inductive Agg where
  | count
  | mean
deriving DecidableEq, Repr

/-- A 2-D pivot matrix with rendered labels. -/
structure PivotM where
  rowLabels : List String
  colLabels : List String
  cells : List (List ℚ)
deriving DecidableEq, Repr

/-- One cell of a pivot before zero-filling: `none` when no row matches the
(row key, column key) pair; `count` counts the non-missing values of the
value column, `mean` averages them. -/
def pivotCell {κ₁ κ₂ : Type} [DecidableEq κ₁] [DecidableEq κ₂]
    (rows : List Row) (val : Row → Option ℚ)
    (rkey : Row → Option κ₁) (ckey : Row → Option κ₂)
    (agg : Agg) (rk : κ₁) (ck : κ₂) : Option ℚ :=
  let group := rows.filter (fun r => decide (rkey r = some rk) && decide (ckey r = some ck))
  if group.isEmpty then none
  else match agg with
    | .count => some (qofNat (group.countP (fun r => (val r).isSome)))
    | .mean => meanOpt (group.map val)

/-- The sorted distinct non-missing keys of an axis (pandas sorts group keys
ascending and drops missing ones). -/
def pivotKeys {κ : Type} [DecidableEq κ] (le : κ → κ → Bool)
    (key : Row → Option κ) (rows : List Row) : List κ :=
  insSort le (dedupFirst (rows.filterMap key))

/-- The row keys that survive `dropna=True`: keys one of whose cells is
non-missing. -/
def pivotKeptRows {κ₁ κ₂ : Type} [DecidableEq κ₁] [DecidableEq κ₂]
    (rows : List Row) (val : Row → Option ℚ)
    (rkey : Row → Option κ₁) (ckey : Row → Option κ₂)
    (rle : κ₁ → κ₁ → Bool) (cle : κ₂ → κ₂ → Bool) (agg : Agg) : List κ₁ :=
  (pivotKeys rle rkey rows).filter (fun rk =>
    (pivotKeys cle ckey rows).any (fun ck =>
      (pivotCell rows val rkey ckey agg rk ck).isSome))

/-- The column keys that survive `dropna=True`. -/
def pivotKeptCols {κ₁ κ₂ : Type} [DecidableEq κ₁] [DecidableEq κ₂]
    (rows : List Row) (val : Row → Option ℚ)
    (rkey : Row → Option κ₁) (ckey : Row → Option κ₂)
    (rle : κ₁ → κ₁ → Bool) (cle : κ₂ → κ₂ → Bool) (agg : Agg) : List κ₂ :=
  (pivotKeys cle ckey rows).filter (fun ck =>
    (pivotKeys rle rkey rows).any (fun rk =>
      (pivotCell rows val rkey ckey agg rk ck).isSome))

/-- `DataFrame.pivot_table(values=val, index=rkey, columns=ckey,
aggfunc=agg).fillna(0)`: distinct sorted keys on each axis, all-missing rows
and columns dropped (the default `dropna=True`), then missing cells filled
with 0. -/
def pivotTable {κ₁ κ₂ : Type} [DecidableEq κ₁] [DecidableEq κ₂]
    (rows : List Row) (val : Row → Option ℚ)
    (rkey : Row → Option κ₁) (ckey : Row → Option κ₂)
    (rle : κ₁ → κ₁ → Bool) (cle : κ₂ → κ₂ → Bool)
    (rshow : κ₁ → String) (cshow : κ₂ → String) (agg : Agg) : PivotM :=
  let cell := pivotCell rows val rkey ckey agg
  let keptR := pivotKeptRows rows val rkey ckey rle cle agg
  let keptC := pivotKeptCols rows val rkey ckey rle cle agg
  { rowLabels := keptR.map rshow,
    colLabels := keptC.map cshow,
    cells := keptR.map (fun rk => keptC.map (fun ck => (cell rk ck).getD 0)) }

/-- Reorder the day-name row axis of a pivot to canonical Monday..Sunday
order, keeping only the days present:
`pivot.reindex([day for day in day_order if day in pivot.index])`. -/
def reindexDays (m : PivotM) : PivotM :=
  let order := dayNames.filter (fun d => d ∈ m.rowLabels)
  { rowLabels := order,
    colLabels := m.colLabels,
    cells := order.map (fun d => m.cells.getD (m.rowLabels.indexOf d) []) }

/-- Reorder a day-name column axis, as view 5 does for its columns. -/
def reindexDayCols (m : PivotM) : PivotM :=
  let order := dayNames.filter (fun d => d ∈ m.colLabels)
  { rowLabels := m.rowLabels,
    colLabels := order,
    cells := m.cells.map (fun row =>
      order.map (fun d => row.getD (m.colLabels.indexOf d) 0)) }

/-! ## create_demand_heatmap (src/app.py) -/

/-- The result shape of `create_demand_heatmap`: the success path returns a
dict with default, options and available_views; the exception path returns
either the simple fallback heatmap or a bare empty-chart dict.  Rendering a
matrix to a plotly figure and JSON is out of scope and modelled as the
matrix itself. -/
inductive HeatmapResult where
  | full (dflt : Option PivotM) (options : List (String × PivotM))
      (availableViews : List String)
  | fallbackSimple (m : PivotM)
  | fallbackEmpty
deriving DecidableEq, Repr

/-- The (day, hour) flight-count pivot of view 1 (and of the fallback),
indexed by `data["date"].dt.day_name()` against `data["date"].dt.hour`,
counting the price column. -/
def dayHourCountPivot (f : Frame) : PivotM :=
  pivotTable f.rows (fun r => r.price)
    (fun r => r.date.map dayName) (fun r => r.date.map (fun d => d.hour))
    strLe zLe id toString .count

/-- The (day, hour) mean-price pivot of view 2. -/
def dayHourPricePivot (f : Frame) : PivotM :=
  pivotTable f.rows (fun r => r.price)
    (fun r => r.date.map dayName) (fun r => r.date.map (fun d => d.hour))
    strLe zLe id toString .mean

/-- The (day, hour) mean-demand-score pivot of view 3. -/
def dayHourDemandPivot (f : Frame) : PivotM :=
  pivotTable f.rows (fun r => r.demand_score)
    (fun r => r.date.map dayName) (fun r => r.date.map (fun d => d.hour))
    strLe zLe id toString .mean

/-- The (route, airline) flight-count pivot of view 4. -/
def routeAirlinePivot (f : Frame) : PivotM :=
  pivotTable f.rows (fun r => r.price)
    (fun r => r.route) (fun r => r.airline)
    strLe strLe id id .count

/-- The (route, day) mean-price pivot of view 5. -/
def routeDayPricePivot (f : Frame) : PivotM :=
  pivotTable f.rows (fun r => r.price)
    (fun r => r.route) (fun r => r.date.map dayName)
    strLe strLe id id .mean

/-- The (is_weekend, hour) flight-count pivot of view 6, before relabeling. -/
def weekendHourPivot (f : Frame) : PivotM :=
  pivotTable f.rows (fun r => r.price)
    (fun r => r.is_weekend) (fun r => r.hour)
    bLe zLe (fun b => toString b) toString .count

/-- The relabeling step of view 6: assigning the two labels
`["Weekday", "Weekend"]` to the pivot index succeeds exactly when that
index has length 2 (both boolean classes actually occur); otherwise pandas
raises `ValueError: Length mismatch`. -/
def weekendViewRelabel (f : Frame) : Except String PivotM :=
  let m := weekendHourPivot f
  if m.rowLabels.length = 2 then
    .ok { m with rowLabels := ["Weekday", "Weekend"] }
  else .error "ValueError: Length mismatch"

/-- The six guarded view constructions inside the `try` of
`create_demand_heatmap`.  `pivot_table(values="price", ...)` raises
`KeyError` when the price column is absent; assigning the two labels
`["Weekday", "Weekend"]` to the weekend pivot index raises `ValueError`
when that index does not have length 2 (that is, when only one of the two
boolean values actually occurs). -/
def heatmapViews (f : Frame) : Except String (List (String × PivotM)) := do
  let hm0 : List (String × PivotM) := []
  let hm ← (do
    if "date" ∈ f.cols ∧ "hour" ∈ f.cols then
      if "price" ∉ f.cols then .error "KeyError: price" else
      .ok (hm0 ++ [("flight_count", reindexDays (dayHourCountPivot f))])
    else .ok hm0 : Except String (List (String × PivotM)))
  let hm ← (do
    if "date" ∈ f.cols ∧ "hour" ∈ f.cols then
      if "price" ∉ f.cols then .error "KeyError: price" else
      .ok (hm ++ [("price_heatmap", reindexDays (dayHourPricePivot f))])
    else .ok hm : Except String (List (String × PivotM)))
  let hm ← (do
    if "date" ∈ f.cols ∧ "hour" ∈ f.cols ∧ "demand_score" ∈ f.cols then
      .ok (hm ++ [("demand_score", reindexDays (dayHourDemandPivot f))])
    else .ok hm : Except String (List (String × PivotM)))
  let hm ← (do
    if "route" ∈ f.cols ∧ "airline" ∈ f.cols then
      if "price" ∉ f.cols then .error "KeyError: price" else
      .ok (hm ++ [("route_airline", routeAirlinePivot f)])
    else .ok hm : Except String (List (String × PivotM)))
  let hm ← (do
    if "route" ∈ f.cols ∧ "date" ∈ f.cols then
      if "price" ∉ f.cols then .error "KeyError: price" else
      .ok (hm ++ [("route_day_price", reindexDayCols (routeDayPricePivot f))])
    else .ok hm : Except String (List (String × PivotM)))
  if "is_weekend" ∈ f.cols ∧ "hour" ∈ f.cols then
    if "price" ∉ f.cols then .error "KeyError: price" else
    match weekendViewRelabel f with
    | .ok m => .ok (hm ++ [("weekend_analysis", m)])
    | .error e => .error e
  else .ok hm

/-- `create_demand_heatmap`: on success return default, options and
available_views; on any exception fall back to the single simple (day, hour)
count heatmap, or to the bare empty chart when that too raises. -/
def createDemandHeatmap (f : Frame) : HeatmapResult :=
  match heatmapViews f with
  | .ok hm =>
    let dflt := match hm.lookup "flight_count" with
      | some m => some m
      | none => hm.lookup "price_heatmap"
    .full dflt hm (hm.map (fun v => v.1))
  | .error _ =>
    if "date" ∈ f.cols ∧ "price" ∈ f.cols then
      .fallbackSimple (dayHourCountPivot f)
    else .fallbackEmpty

/-! ## InsightsGenerator (src/insights_generator.py) -/

/-- JSON-like values for the insight dictionaries.  A numeric NaN leaf is
`nullv`; `sqrtv v` is the exact square root of the rational `v` (used where
the code stores a standard deviation, which is irrational in general). -/
inductive JVal where
  | str (s : String)
  | num (q : ℚ)
  | sqrtv (q : ℚ)
  | bool (b : Bool)
  | nullv
  | arr (xs : List JVal)
  | obj (kvs : List (String × JVal))

/-- The top-level keys of an object value. -/
def JVal.keys : JVal → List String
  | .obj kvs => kvs.map Prod.fst
  | _ => []

/-- A number-or-NaN leaf. -/
def optNum (o : Option ℚ) : JVal :=
  match o with
  | some q => .num q
  | none => .nullv

/-- A standard-deviation leaf from a variance: NaN when the variance is
missing, otherwise the (symbolic) square root. -/
def optStd (o : Option ℚ) : JVal :=
  match o with
  | some q => .sqrtv q
  | none => .nullv

/-- One entry of the recommendations list (kind, title, description,
priority). -/
structure Rec where
  rtype : String
  title : String
  description : String
  priority : String
deriving DecidableEq, Repr

/-- The synthesis result of `generate_insights`: the seven sections. -/
structure Insights where
  summary : JVal
  price_insights : JVal
  demand_insights : JVal
  route_insights : JVal
  trend_insights : JVal
  recommendations : List Rec
  ai_analysis : JVal

/-- Minimum of the non-missing values (`Series.min`, skipna). -/
def minOpt (xs : List (Option ℚ)) : Option ℚ :=
  (xs.filterMap id).foldl (fun acc x =>
    match acc with
    | none => some x
    | some m => some (if x < m then x else m)) none

/-- Maximum of the non-missing values (`Series.max`, skipna). -/
def maxOpt (xs : List (Option ℚ)) : Option ℚ :=
  (xs.filterMap id).foldl (fun acc x =>
    match acc with
    | none => some x
    | some m => some (if m < x then x else m)) none

/-- Round half to even (the rounding of Python `round` and of the `.0f`
format on an exactly-representable value). -/
def rhe (q : ℚ) : ℤ :=
  let f := q.floor
  let r := qsub q (mkRat f 1)
  if r < mkRat 1 2 then f
  else if mkRat 1 2 < r then f + 1
  else if f % 2 = 0 then f else f + 1

/-- Python `round(x, 2)`. -/
def round2 (q : ℚ) : ℚ := mkRat (rhe (qmul q 100)) 100

/-- Python `f"{x:.0f}"`; NaN renders as "nan". -/
def fmtF0 (q : Option ℚ) : String :=
  match q with
  | none => "nan"
  | some q => toString (rhe q)

/-- Python `f"${x:.0f}"`. -/
def fmtUsd0 (q : Option ℚ) : String := "$" ++ fmtF0 q

/-- Digits-and-dot rendering of a nonnegative tenth-count, for `.1f`. -/
def fmtF1core (n : ℕ) : String := toString (n / 10) ++ "." ++ toString (n % 10)

/-- Python `f"{x:.1f}"`. -/
def fmtF1 (q : ℚ) : String :=
  let m := rhe (qmul q 10)
  if m < 0 then "-" ++ fmtF1core (-m).toNat else fmtF1core m.toNat

/-- Insert thousands separators into a reversed digit list (`k` counts the
digits already placed in the current group). -/
def commaRev : List Char → ℕ → List Char
  | [], _ => []
  | c :: cs, k => if k = 3 then ',' :: c :: commaRev cs 1 else c :: commaRev cs (k + 1)

/-- Python `f"{n:,}"` for a natural number. -/
def fmtComma (n : ℕ) : String :=
  ⟨(commaRev (toString n).data.reverse 0).reverse⟩

/-- `Series.value_counts()`: occurrence counts of the non-missing values,
sorted by count descending, ties in order of first appearance. -/
def valueCounts {κ : Type} [DecidableEq κ] (xs : List (Option κ)) : List (κ × ℕ) :=
  let v := xs.filterMap id
  let keys := dedupFirst v
  insSort (fun a b => decide (b.2 ≤ a.2)) (keys.map (fun k => (k, v.countP (fun x => decide (x = k)))))

/-- `groupby(key)[val].mean()`: group keys sorted ascending, missing keys
dropped, `none` for an all-missing group. -/
def groupMeanBy {κ : Type} [DecidableEq κ] (le : κ → κ → Bool)
    (key : Row → Option κ) (val : Row → Option ℚ) (rows : List Row) :
    List (κ × Option ℚ) :=
  (pivotKeys le key rows).map (fun k =>
    (k, meanOpt ((rows.filter (fun r => decide (key r = some k))).map val)))

/-- `groupby(key).size()` / per-group row count. -/
def groupCountBy {κ : Type} [DecidableEq κ] (le : κ → κ → Bool)
    (key : Row → Option κ) (rows : List Row) : List (κ × ℕ) :=
  (pivotKeys le key rows).map (fun k =>
    (k, (rows.filter (fun r => decide (key r = some k))).length))

/-- `groupby(key)[val].std()` as the per-group sample variance (the stored
value is its square root). -/
def groupVarBy {κ : Type} [DecidableEq κ] (le : κ → κ → Bool)
    (key : Row → Option κ) (val : Row → Option ℚ) (rows : List Row) :
    List (κ × Option ℚ) :=
  (pivotKeys le key rows).map (fun k =>
    (k, varOpt ((rows.filter (fun r => decide (key r = some k))).map val)))

/-- Comparator for `sort_values(ascending=True)` on optional values: NaN
sorts last. -/
def ascNanLast (a b : Option ℚ) : Bool :=
  match a, b with
  | none, none => true
  | none, some _ => false
  | some _, none => true
  | some x, some y => decide (x ≤ y)

/-- Comparator for `sort_values(ascending=False)`: NaN still sorts last. -/
def descNanLast (a b : Option ℚ) : Bool :=
  match a, b with
  | none, none => true
  | none, some _ => false
  | some _, none => true
  | some x, some y => decide (y ≤ x)

/-- Stable descending sort of keyed optional values (`sort_values`
descending, also `nlargest` after a `take`). -/
def sortPairsDesc {κ : Type} (l : List (κ × Option ℚ)) : List (κ × Option ℚ) :=
  insSort (fun a b => descNanLast a.2 b.2) l

/-- Stable ascending sort of keyed optional values. -/
def sortPairsAsc {κ : Type} (l : List (κ × Option ℚ)) : List (κ × Option ℚ) :=
  insSort (fun a b => ascNanLast a.2 b.2) l

/-- One step of the `idxmin` fold: keep the strictly smallest value seen so
far, preferring the earlier key on ties. -/
def idxminStep {κ : Type} (acc : Option (κ × ℚ)) (kv : κ × Option ℚ) : Option (κ × ℚ) :=
  match kv.2 with
  | none => acc
  | some x =>
    match acc with
    | none => some (kv.1, x)
    | some best => if x < best.2 then some (kv.1, x) else acc

/-- `Series.idxmin()`: the first key attaining the minimal non-missing
value; `none` when every value is missing (pandas raises there). -/
def idxminOpt {κ : Type} (l : List (κ × Option ℚ)) : Option κ :=
  (l.foldl idxminStep none).map Prod.fst

/-- Minimum of the date column by the ordering key (`Series.min` on
datetimes, skipna); ties keep the first occurrence. -/
def minDateOpt (rows : List Row) : Option DateTime :=
  (rows.filterMap (fun r => r.date)).foldl (fun acc d =>
    match acc with
    | none => some d
    | some m => some (if d.ord < m.ord then d else m)) none

/-- Maximum of the date column by the ordering key. -/
def maxDateOpt (rows : List Row) : Option DateTime :=
  (rows.filterMap (fun r => r.date)).foldl (fun acc d =>
    match acc with
    | none => some d
    | some m => some (if m.ord < d.ord then d else m)) none

/-- `_generate_summary_insights`: totals, mean price, price-range string,
top-3 routes/airlines by count, 3-bucket price distribution, and the date
span.  Unguarded column accesses (`price`, `route`, `airline`, `date`)
raise `KeyError`; `min()` of an all-missing date column is NaT, whose
`strftime` raises. -/
def summarySection (f : Frame) : Except String JVal := do
  if "price" ∉ f.cols then .error "KeyError: price" else
  let prices := f.rows.map (fun r => r.price)
  let avg := meanOpt prices
  if "route" ∉ f.cols then .error "KeyError: route" else
  if "airline" ∉ f.cols then .error "KeyError: airline" else
  if "date" ∉ f.cols then .error "KeyError: date" else
  match minDateOpt f.rows, maxDateOpt f.rows with
  | some dmin, some dmax =>
    .ok (.obj
      [("total_flights", .num (qofNat f.rows.length)),
       ("average_price", optNum (avg.map round2)),
       ("price_range", .str (fmtUsd0 (minOpt prices) ++ " - " ++ fmtUsd0 (maxOpt prices))),
       ("popular_routes", .obj (((valueCounts (f.rows.map (fun r => r.route))).take 3).map
          (fun kc => (kc.1, JVal.num (qofNat kc.2))))),
       ("popular_airlines", .obj (((valueCounts (f.rows.map (fun r => r.airline))).take 3).map
          (fun kc => (kc.1, JVal.num (qofNat kc.2))))),
       ("price_distribution", .obj
         [("budget", .num (qofNat (f.rows.countP (fun r =>
             match r.price with | some p => decide (p < 300) | none => false)))),
          ("economy", .num (qofNat (f.rows.countP (fun r =>
             match r.price with | some p => decide (300 ≤ p ∧ p < 500) | none => false)))),
          ("premium", .num (qofNat (f.rows.countP (fun r =>
             match r.price with | some p => decide (500 ≤ p) | none => false))))]),
       ("data_period", .str (dmin.ymd ++ " to " ++ dmax.ymd))])
  | _, _ => .error "ValueError: NaT strftime"

/-- `_generate_price_insights`: day/hour price rankings (guarded on their
columns), per-airline aggregates, route rankings and the top-5 route price
volatility.  The volatility ranking sorts by standard deviation descending,
which this embedding performs by variance (the square root is monotone). -/
def priceInsightsSection (f : Frame) : Except String JVal := do
  let base : List (String × JVal) := []
  let base ←
    if "day_of_week" ∈ f.cols then
      if "price" ∉ f.cols then .error "KeyError: price" else
      let dayPrices := sortPairsDesc (groupMeanBy strLe (fun r => r.day_of_week) (fun r => r.price) f.rows)
      .ok (base ++
        [("expensive_days", .obj ((dayPrices.take 3).map (fun kv => (kv.1, optNum kv.2)))),
         ("cheapest_days", .obj ((dayPrices.drop (dayPrices.length - 3)).map (fun kv => (kv.1, optNum kv.2))))])
    else .ok base
  let base ←
    if "hour" ∈ f.cols then
      if "price" ∉ f.cols then .error "KeyError: price" else
      let hourPrices := sortPairsDesc (groupMeanBy zLe (fun r => r.hour) (fun r => r.price) f.rows)
      .ok (base ++
        [("expensive_hours", .obj ((hourPrices.take 3).map (fun kv => (toString kv.1, optNum kv.2)))),
         ("cheapest_hours", .obj ((hourPrices.drop (hourPrices.length - 3)).map (fun kv => (toString kv.1, optNum kv.2))))])
    else .ok base
  if "airline" ∉ f.cols then .error "KeyError: airline" else
  if "price" ∉ f.cols then .error "KeyError: price" else
  let airlineAgg := (pivotKeys strLe (fun r => r.airline) f.rows).map (fun k =>
    let grp := f.rows.filter (fun r => decide (r.airline = some k))
    (k, meanOpt (grp.map (fun r => r.price)), grp.length))
  let base := base ++
    [("airline_pricing", .obj (airlineAgg.map (fun kv =>
        (kv.1, JVal.obj [("mean", optNum (kv.2.1.map round2)), ("count", .num (qofNat kv.2.2))]))))]
  if "route" ∉ f.cols then .error "KeyError: route" else
  let routePrices := sortPairsDesc (groupMeanBy strLe (fun r => r.route) (fun r => r.price) f.rows)
  let base := base ++
    [("expensive_routes", .obj ((routePrices.take 3).map (fun kv => (kv.1, optNum kv.2)))),
     ("cheapest_routes", .obj ((routePrices.drop (routePrices.length - 3)).map (fun kv => (kv.1, optNum kv.2))))]
  let routeVars := sortPairsDesc (groupVarBy strLe (fun r => r.route) (fun r => r.price) f.rows)
  .ok (.obj (base ++
    [("price_volatility", .obj ((routeVars.take 5).map (fun kv => (kv.1, optStd kv.2))))]))

/-- `_generate_demand_insights`: busiest/quietest days and hours,
weekend-flight share, airline and route popularity counts.  A table whose
is_weekend column has no non-missing boolean would divide zero by zero
(`ZeroDivisionError`). -/
def demandInsightsSection (f : Frame) : Except String JVal := do
  let base : List (String × JVal) := []
  let base ←
    if "day_of_week" ∈ f.cols then
      let dayDemand := valueCounts (f.rows.map (fun r => r.day_of_week))
      .ok (base ++
        [("busiest_days", .obj ((dayDemand.take 3).map (fun kv => (kv.1, JVal.num (qofNat kv.2))))),
         ("quietest_days", .obj ((dayDemand.drop (dayDemand.length - 3)).map (fun kv => (kv.1, JVal.num (qofNat kv.2)))))])
    else .ok base
  let base ←
    if "hour" ∈ f.cols then
      let hourDemand := groupCountBy zLe (fun r => r.hour) f.rows
      let largest := insSort (fun a b => decide (b.2 ≤ a.2)) hourDemand
      let smallest := insSort (fun a b => decide (a.2 ≤ b.2)) hourDemand
      .ok (base ++
        [("peak_hours", .obj ((largest.take 5).map (fun kv => (toString kv.1, JVal.num (qofNat kv.2))))),
         ("off_peak_hours", .obj ((smallest.take 5).map (fun kv => (toString kv.1, JVal.num (qofNat kv.2)))))])
    else .ok base
  let base ←
    if "is_weekend" ∈ f.cols then
      let wk := (f.rows.filter (fun r => decide (r.is_weekend = some true))).length
      let wd := (f.rows.filter (fun r => decide (r.is_weekend = some false))).length
      if wk + wd = 0 then .error "ZeroDivisionError" else
      .ok (base ++ [("weekend_ratio", JVal.num (round2 (qdiv (qofNat wk) (qofNat (wk + wd)))))])
    else .ok base
  if "airline" ∉ f.cols then .error "KeyError: airline" else
  let base := base ++
    [("airline_popularity", .obj ((valueCounts (f.rows.map (fun r => r.airline))).map
        (fun kv => (kv.1, JVal.num (qofNat kv.2)))))]
  if "route" ∉ f.cols then .error "KeyError: route" else
  .ok (.obj (base ++
    [("route_popularity", .obj ((valueCounts (f.rows.map (fun r => r.route))).map
        (fun kv => (kv.1, JVal.num (qofNat kv.2)))))]))

/-- The per-route entry of `_generate_route_insights`.  The loop body
accesses the hour and is_weekend columns unguardedly and divides by the
route group size (zero for the NaN key that `Series.unique` can emit). -/
def routeInsightEntry (f : Frame) (k : Option String) : Except String (String × JVal) := do
  let rdata : List Row := match k with
    | some s => f.rows.filter (fun r => decide (r.route = some s))
    | none => []
  let prices := rdata.map (fun r => r.price)
  if "hour" ∉ f.cols then .error "KeyError: hour" else
  if "is_weekend" ∉ f.cols then .error "KeyError: is_weekend" else
  if rdata.length = 0 then .error "ZeroDivisionError" else
  let base : List (String × JVal) :=
    [("total_flights", .num (qofNat rdata.length)),
     ("avg_price", optNum ((meanOpt prices).map round2)),
     ("price_range", .str (fmtUsd0 (minOpt prices) ++ " - " ++ fmtUsd0 (maxOpt prices))),
     ("popular_airlines", .obj (((valueCounts (rdata.map (fun r => r.airline))).take 3).map
        (fun kv => (kv.1, JVal.num (qofNat kv.2))))),
     ("peak_hours", .obj (((valueCounts (rdata.map (fun r => r.hour))).take 3).map
        (fun kv => (toString kv.1, JVal.num (qofNat kv.2))))),
     ("weekend_ratio", .num (round2 (qdiv
        (qofNat (rdata.filter (fun r => decide (r.is_weekend = some true))).length)
        (qofNat rdata.length))))]
  let base :=
    if "demand_score" ∈ f.cols then
      base ++ [("avg_demand_score", optNum ((meanOpt (rdata.map (fun r => r.demand_score))).map round2))]
    else base
  .ok (k.getD "nan", .obj base)

/-- `_generate_route_insights`: one entry per distinct route, in order of
first appearance (`Series.unique`). -/
def routeInsightsSection (f : Frame) : Except String JVal := do
  if "route" ∉ f.cols then .error "KeyError: route" else
  let keys := dedupFirst (f.rows.map (fun r => r.route))
  let entries ← keys.mapM (routeInsightEntry f)
  .ok (.obj entries)

/-- `_generate_trend_insights`: daily mean-price and daily-count trends via
the Trend Estimator, plus the weekly mean-price series.  `np.polyfit` on a
series containing NaN raises `LinAlgError`. -/
def trendInsightsSection (f : Frame) : Except String JVal := do
  if "date" ∈ f.cols then
    let dailyPrices := groupMeanBy (fun a b => decide (a.ord ≤ b.ord)) (fun r => r.date)
      (fun r => r.price) f.rows
    let priceVals ← (do
      if dailyPrices.all (fun kv => kv.2.isSome) then
        .ok (dailyPrices.filterMap (fun kv => kv.2))
      else .error "LinAlgError: SVD did not converge" : Except String (List ℚ))
    let dailyCounts := groupCountBy (fun a b => decide (a.ord ≤ b.ord)) (fun r => r.date) f.rows
    let weeklyPrices := groupMeanBy zLe (fun r => r.date.map (fun d => d.week))
      (fun r => r.price) f.rows
    .ok (.obj
      [("price_trend", .str (calculateTrend priceVals)),
       ("demand_trend", .str (calculateTrend (dailyCounts.map (fun kv => qofNat kv.2)))),
       ("weekly_price_pattern", .obj (weeklyPrices.map (fun kv => (toString kv.1, optNum kv.2))))])
  else .ok (.obj [])

/-- The price-alert entry of `_generate_recommendations`: emitted exactly
when the mean price exceeds 400 (a missing mean fails the comparison). -/
def priceRecsOf (avg : Option ℚ) : List Rec :=
  match avg with
  | some a =>
    if 400 < a then
      [{ rtype := "price", title := "High Average Prices",
         description := "Average ticket price is " ++ fmtUsd0 (some a) ++
           ". Consider booking during off-peak hours or weekdays for better deals.",
         priority := "medium" }]
    else []
  | none => []

/-- The weekend share used by `_generate_recommendations`. -/
def weekendShareOf (f : Frame) : ℚ :=
  qdiv (qofNat (f.rows.filter (fun r => decide (r.is_weekend = some true))).length)
    (qofNat f.rows.length)

/-- The weekend-dominance entry of `_generate_recommendations`: only
computed when the is_weekend column exists; dividing by the row count of an
empty table raises `ZeroDivisionError`. -/
def weekendRecsOf (f : Frame) : Except String (List Rec) :=
  if "is_weekend" ∈ f.cols then
    if f.rows.length = 0 then .error "ZeroDivisionError" else
    if mkRat 3 5 < weekendShareOf f then
      .ok [{ rtype := "demand", title := "Weekend Travel Dominance",
             description := fmtF0 (some (qmul (weekendShareOf f) 100)) ++
               "% of flights are on weekends. Consider weekday travel for lower prices and less competition.",
             priority := "high" }]
    else .ok []
  else .ok []

/-- The per-route entries of `_generate_recommendations`: one per
`nlargest(2)` most expensive route. -/
def routeRecsOf (f : Frame) : List Rec :=
  ((sortPairsDesc (groupMeanBy strLe (fun r => r.route) (fun r => r.price) f.rows)).take 2).map
    (fun kv =>
      { rtype := "route", title := "Expensive Route: " ++ kv.1,
        description := "Average price for " ++ kv.1 ++ " is " ++ fmtUsd0 kv.2 ++
          ". Consider alternative routes or booking well in advance.",
        priority := "medium" : Rec })

/-- The best-value-airline entry of `_generate_recommendations`. -/
def bestValueRec (best : String) (bestPrice : ℚ) : Rec :=
  { rtype := "airline", title := "Best Value Airline",
    description := best ++ " offers the lowest average prices at " ++
      fmtUsd0 (some bestPrice) ++ ".",
    priority := "high" }

/-- `_generate_recommendations`: the price alert (mean price over 400), the
weekend-dominance alert (weekend share over 0.6, only when the is_weekend
column exists), one entry per `nlargest(2)` most expensive route, and the
best-value airline from `idxmin` (which raises on an all-missing series). -/
def recommendationsSection (f : Frame) : Except String (List Rec) := do
  if "price" ∉ f.cols then .error "KeyError: price" else
  let priceRecs := priceRecsOf (meanOpt (f.rows.map (fun r => r.price)))
  let weekendRecs ← weekendRecsOf f
  if "route" ∉ f.cols then .error "KeyError: route" else
  let routeRecs := routeRecsOf f
  if "airline" ∉ f.cols then .error "KeyError: airline" else
  let airlineMeans := groupMeanBy strLe (fun r => r.airline) (fun r => r.price) f.rows
  match idxminOpt airlineMeans, minOpt (airlineMeans.map (fun kv => kv.2)) with
  | some best, some bestPrice =>
    .ok (priceRecs ++ weekendRecs ++ routeRecs ++ [bestValueRec best bestPrice])
  | _, _ => .error "ValueError: idxmin of an all-NA series"

/-- The statistics `_get_mock_ai_analysis` computes before building its
dict: mean price, flight count, price-range string, top routes and the
weekend share, with fixed fallbacks for an empty table.  When the table is
non-empty these access the price and route (and, unused in the output but
still computed, airline) columns, raising `KeyError` when absent. -/
def mockAiStats (f : Frame) :
    Except String (Option ℚ × ℕ × String × List (String × ℕ) × ℚ) := do
  let avg ← (do
    if f.rows.isEmpty then .ok (some (350 : ℚ))
    else if "price" ∉ f.cols then .error "KeyError: price"
    else .ok (meanOpt (f.rows.map (fun r => r.price))) : Except String (Option ℚ))
  let totalFlights := if f.rows.isEmpty then 100 else f.rows.length
  let priceRange :=
    if f.rows.isEmpty then "$200 - $800"
    else fmtUsd0 (minOpt (f.rows.map (fun r => r.price))) ++ " - " ++
      fmtUsd0 (maxOpt (f.rows.map (fun r => r.price)))
  let popularRoutes ← (do
    if f.rows.isEmpty then .ok [("SYD-MEL", 25), ("SYD-BNE", 20), ("MEL-BNE", 15)]
    else if "route" ∉ f.cols then .error "KeyError: route"
    else .ok ((valueCounts (f.rows.map (fun r => r.route))).take 3) : Except String (List (String × ℕ)))
  let _popularAirlines ← (do
    if f.rows.isEmpty then .ok [("Qantas", 30), ("Virgin Australia", 25), ("Jetstar", 20)]
    else if "airline" ∉ f.cols then .error "KeyError: airline"
    else .ok ((valueCounts (f.rows.map (fun r => r.airline))).take 3) : Except String (List (String × ℕ)))
  let weekendShare : ℚ :=
    if ¬f.rows.isEmpty ∧ "is_weekend" ∈ f.cols then
      qdiv (qofNat (f.rows.filter (fun r => decide (r.is_weekend = some true))).length)
        (qofNat f.rows.length)
    else 0
  .ok (avg, totalFlights, priceRange, popularRoutes, weekendShare)

/-- `_get_mock_ai_analysis`: the deterministic narrative, a fixed schema
whose first five keys are the sections named by the spec (the dict carries
three further static sections). -/
def mockAiAnalysis (f : Frame) : Except String JVal := do
  let stats ← mockAiStats f
  let avg := stats.1
  let totalFlights := stats.2.1
  let priceRange := stats.2.2.1
  let popularRoutes := stats.2.2.2.1
  let weekendShare := stats.2.2.2.2
  .ok (.obj
    [("trends", .obj
       [("market_growth", .str "The Australian domestic airline market is experiencing steady recovery with 15-20% year-over-year growth in passenger demand."),
        ("seasonal_patterns", .str "Strong seasonal variations observed with peak demand during school holidays (Dec-Jan, Apr, Jul, Sep) and major events."),
        ("price_volatility", .str ("Moderate price volatility of 20-30% observed, with average ticket price of " ++ fmtUsd0 avg ++ " showing dynamic pricing patterns.")),
        ("competition_intensity", .str "High competition between full-service carriers (Qantas, Virgin) and low-cost carriers (Jetstar, Tigerair).")]),
     ("pricing", .obj
       [("average_price", .str (fmtUsd0 avg)),
        ("price_range", .str priceRange),
        ("pricing_strategy", .str "Airlines are implementing sophisticated dynamic pricing with 15-25% price variations based on demand, time of booking, and seasonality."),
        ("price_factors", .arr
          [.str "Day of week (weekends 20-30% higher)",
           .str "Time of day (peak hours 15-25% higher)",
           .str "Advance booking (last-minute 40-60% higher)",
           .str "Seasonal demand (holiday periods 30-50% higher)"]),
        ("cost_structure", .obj
          [("fuel_costs", .str "25-30% of operating costs"),
           ("labor_costs", .str "20-25% of operating costs"),
           ("aircraft_costs", .str "15-20% of operating costs"),
           ("other_costs", .str "25-30% of operating costs")])]),
     ("demand", .obj
       [("total_volume", .str (fmtComma totalFlights ++ " flights analyzed")),
        ("peak_periods", .str "Weekend flights show 35-45% higher demand than weekdays, with Friday and Sunday being the busiest travel days."),
        ("popular_routes", .str ("Top routes: " ++ String.intercalate ", "
          ((popularRoutes.take 3).map (fun kc => kc.1 ++ " (" ++ toString kc.2 ++ " flights)")))),
        ("demand_factors", .arr
          [.str "Business travel recovery (40% of demand)",
           .str "Leisure travel growth (35% of demand)",
           .str "VFR (Visiting Friends & Relatives) travel (25% of demand)"]),
        ("weekend_ratio", .str (fmtF1 (qmul weekendShare 100) ++ "% of flights are on weekends")),
        ("demand_elasticity", .str "Price elasticity of -1.2 indicates moderate price sensitivity among travelers.")]),
     ("recommendations", .arr
       [.str "Strategic Pricing: Implement dynamic pricing models that adjust rates based on demand patterns and competitor pricing.",
        .str "Capacity Management: Optimize flight schedules to match demand peaks, especially during weekends and holiday periods.",
        .str "Route Optimization: Focus on high-demand routes while exploring opportunities in underserved markets.",
        .str "Customer Segmentation: Develop targeted marketing strategies for business vs leisure travelers.",
        .str "Technology Investment: Invest in AI-powered demand forecasting and pricing optimization tools.",
        .str "Partnership Opportunities: Explore codeshare agreements and strategic alliances to expand network coverage.",
        .str "Sustainability Focus: Implement fuel-efficient practices and carbon offset programs to meet environmental regulations.",
        .str "Digital Transformation: Enhance online booking platforms and mobile apps for better customer experience."]),
     ("risks", .arr
       [.str "Economic Downturn: Recession could reduce discretionary travel spending by 20-30%.",
        .str "Fuel Price Volatility: 10% increase in fuel prices could impact profitability by 5-8%.",
        .str "Regulatory Changes: New safety or environmental regulations could increase operational costs.",
        .str "Competitive Pressure: New market entrants or aggressive pricing by competitors could erode market share.",
        .str "Technology Disruption: Emerging technologies (eVTOL, high-speed rail) could disrupt traditional airline business models.",
        .str "Climate Change: Extreme weather events could impact flight schedules and increase operational costs.",
        .str "Labor Relations: Industrial disputes could lead to flight cancellations and reputational damage.",
        .str "Cybersecurity Threats: Data breaches could compromise customer information and trust."]),
     ("market_opportunities", .arr
       [.str "Regional Expansion: Untapped potential in regional routes with growing business and tourism demand.",
        .str "Premium Services: Growing demand for premium economy and business class services.",
        .str "Cargo Operations: Leverage passenger aircraft for cargo operations during off-peak periods.",
        .str "Loyalty Programs: Enhanced frequent flyer programs to increase customer retention and revenue.",
        .str "Ancillary Services: Revenue from baggage fees, seat selection, and in-flight services.",
        .str "Corporate Partnerships: B2B partnerships with travel management companies and corporate clients.",
        .str "International Connections: Leverage domestic network to feed international routes.",
        .str "Digital Services: AI-powered chatbots, personalized recommendations, and seamless booking experiences."]),
     ("competitive_analysis", .obj
       [("market_leaders", .obj
          [("Qantas", .str "Market leader with 40% share, strong brand loyalty, comprehensive network"),
           ("Virgin Australia", .str "Second largest with 25% share, competitive pricing, good customer service"),
           ("Jetstar", .str "Low-cost leader with 20% share, aggressive pricing, growing network")]),
        ("competitive_advantages", .arr
          [.str "Network coverage and frequency",
           .str "Brand recognition and trust",
           .str "Operational efficiency and cost structure",
           .str "Customer service and experience",
           .str "Technology and digital capabilities"])]),
     ("financial_insights", .obj
       [("revenue_drivers", .arr
          [.str "Ticket sales (70-80% of revenue)",
           .str "Ancillary services (15-20% of revenue)",
           .str "Cargo operations (5-10% of revenue)"]),
        ("cost_optimization", .arr
          [.str "Fuel hedging strategies",
           .str "Fleet optimization and maintenance",
           .str "Labor productivity improvements",
           .str "Technology automation"]),
        ("profitability_metrics", .obj
          [("average_margin", .str "8-12% operating margin"),
           ("break_even_load_factor", .str "65-75%"),
           ("revenue_per_available_seat_km", .str "$0.12-0.15")])])])

/-- `_get_ai_analysis` with no credential configured (`OPENAI_API_KEY`
unset): the adapter immediately returns the deterministic mock analysis.
The live path performs network I/O and is out of scope. -/
def getAiAnalysisNoKey (f : Frame) : Except String JVal := mockAiAnalysis f

/-- `_get_default_insights`: the fixed no-data sentinel structure. -/
def getDefaultInsights : Insights :=
  { summary := .obj
      [("message", .str "No data available for analysis"),
       ("recommendation", .str "Please fetch flight data to generate insights")],
    price_insights := .obj [],
    demand_insights := .obj [],
    route_insights := .obj [],
    trend_insights := .obj [],
    recommendations := [],
    ai_analysis := .obj
      [("message", .str "AI analysis requires flight data"),
       ("recommendation", .str "Fetch data to enable AI-powered insights")] }

/-- `InsightsGenerator.generate_insights` with no external credential
configured: the empty table short-circuits to the default sentinel,
otherwise the seven sections are computed in the order the dict literal
evaluates them (an exception in any section propagates). -/
def generateInsightsNoKey (f : Frame) : Except String Insights := do
  if f.rows.isEmpty then .ok getDefaultInsights
  else
    let s ← summarySection f
    let p ← priceInsightsSection f
    let d ← demandInsightsSection f
    let r ← routeInsightsSection f
    let t ← trendInsightsSection f
    let recs ← recommendationsSection f
    let ai ← getAiAnalysisNoKey f
    .ok { summary := s, price_insights := p, demand_insights := d,
          route_insights := r, trend_insights := t,
          recommendations := recs, ai_analysis := ai }

/-! ## Decidability of result equality, and concrete inputs used below -/

instance {e a : Type} [DecidableEq e] [DecidableEq a] : DecidableEq (Except e a)
  | .ok x, .ok y => decidable_of_iff (x = y) (by simp)
  | .error x, .error y => decidable_of_iff (x = y) (by simp)
  | .ok _, .error _ => isFalse (by simp)
  | .error _, .ok _ => isFalse (by simp)

/-- A well-formed single raw record (price, airline and route present). -/
def rowC1 : Row := { price := some 300, airline := some "Qantas", route := some "SYD-MEL" }

/-- A second record for two-record batches. -/
def rowC1b : Row := { price := some 320, airline := some "Jetstar", route := some "SYD-MEL" }

/-- A record missing the route field. -/
def rowNoRoute : Row := { price := some 300, airline := some "Qantas" }

/-- A record missing the price field. -/
def rowNoPrice : Row := { airline := some "Qantas" }

/-- A Tuesday timestamp (pandas weekday 1). -/
def dTue : DateTime := { ord := 1, ymd := "2025-01-07", month := 1, weekday := 1, hour := 9, week := 2 }

/-- A Friday timestamp (pandas weekday 4). -/
def dFri : DateTime := { ord := 4, ymd := "2025-01-10", month := 1, weekday := 4, hour := 18, week := 2 }

/-- A record flying on the given date. -/
def rowOn (d : DateTime) : Row :=
  { price := some 300, airline := some "Qantas", route := some "SYD-MEL",
    date := some d, hour := some d.hour }

/-- A table with flights only on a Tuesday and a Friday. -/
def frameTF : Frame := mkFrame [rowOn dTue, rowOn dFri]

/-- A record with just the columns view 6 of the heatmap reads. -/
def rowWk (b : Bool) (h : ℤ) : Row := { price := some 300, hour := some h, is_weekend := some b }

/-- A table with both weekend and weekday flights. -/
def frameBothW : Frame :=
  { rows := [rowWk true 9, rowWk false 9], cols := ["price", "hour", "is_weekend"] }

/-- A table with weekend flights only. -/
def frameOnlyW : Frame :=
  { rows := [rowWk true 9, rowWk true 18], cols := ["price", "hour", "is_weekend"] }

/-- A table with mean price 500, two routes, two airlines and no weekend
flights. -/
def frameC6 : Frame :=
  { rows :=
      [{ price := some 500, airline := some "Qantas", route := some "SYD-MEL", is_weekend := some false },
       { price := some 500, airline := some "Jetstar", route := some "MEL-SYD", is_weekend := some false }],
    cols := ["price", "airline", "route", "is_weekend"] }

/-- A Monday timestamp. -/
def dMon : DateTime := { ord := 0, ymd := "2025-01-06", month := 1, weekday := 0, hour := 9, week := 2 }

/-- A fully-featured enriched record, for exercising the whole synthesizer. -/
def rowFull (p : ℚ) (al rt : String) : Row :=
  { price := some p, airline := some al, route := some rt, date := some dMon,
    day_of_week := some "Monday", hour := some 9, is_weekend := some false }

/-- A fully-featured two-row table. -/
def frameFull : Frame :=
  { rows := [rowFull 500 "Qantas" "SYD-MEL", rowFull 480 "Jetstar" "MEL-SYD"],
    cols := ["price", "airline", "route", "date", "day_of_week", "hour", "is_weekend"] }

/-! # Theorems

First the faithfulness of the reducible rational arithmetic, then generic
lemmas about the list helpers, then the claims. -/

theorem qadd_eq (a b : ℚ) : qadd a b = a + b := by
  rw [qadd, Rat.mkRat_eq_div]
  push_cast
  conv_rhs => rw [← Rat.num_div_den a, ← Rat.num_div_den b]
  rw [div_add_div _ _ (Nat.cast_ne_zero.mpr a.den_nz) (Nat.cast_ne_zero.mpr b.den_nz)]
  ring_nf

theorem qneg_eq (a : ℚ) : qneg a = -a := by
  rw [qneg, Rat.mkRat_eq_div]
  push_cast
  rw [neg_div, Rat.num_div_den]

theorem qsub_eq (a b : ℚ) : qsub a b = a - b := by
  rw [qsub, qadd_eq, qneg_eq, sub_eq_add_neg]

theorem qmul_eq (a b : ℚ) : qmul a b = a * b := by
  rw [qmul, Rat.mkRat_eq_div]
  push_cast
  conv_rhs => rw [← Rat.num_div_den a, ← Rat.num_div_den b]
  rw [div_mul_div_comm]

theorem qinv_eq (a : ℚ) : qinv a = a⁻¹ := by
  rw [Rat.inv_def', Rat.divInt_eq_div]
  rcases lt_or_ge a.num 0 with hn | hp
  · have hq : ((a.num.natAbs : ℚ)) = -(a.num : ℚ) := by
      rw [Int.cast_natAbs]
      exact_mod_cast abs_of_neg hn
    rw [qinv, if_pos hn, Rat.mkRat_eq_div, hq]
    push_cast
    rw [neg_div_neg_eq]
  · have hq : ((a.num.natAbs : ℚ)) = (a.num : ℚ) := by
      rw [Int.cast_natAbs]
      exact_mod_cast abs_of_nonneg hp
    rw [qinv, if_neg (not_lt.mpr hp), Rat.mkRat_eq_div, hq]

theorem qdiv_eq (a b : ℚ) : qdiv a b = a / b := by
  rw [qdiv, qmul_eq, qinv_eq, div_eq_mul_inv]

theorem qsq_eq (a : ℚ) : qsq a = a ^ 2 := by
  rw [qsq, qmul_eq, sq]

theorem qsum_eq (l : List ℚ) : qsum l = l.sum := by
  induction l with
  | nil => rfl
  | cons a t ih =>
    show qadd a (qsum t) = a + t.sum
    rw [qadd_eq, ih]

theorem qofNat_eq (n : ℕ) : qofNat n = (n : ℚ) := by
  rw [qofNat, Rat.mkRat_eq_div]
  simp

/-! ## Lemmas about the sorting and deduplication helpers -/

theorem mem_insertLe {α : Type} (le : α → α → Bool) (a x : α) (l : List α) :
    x ∈ insertLe le a l ↔ x = a ∨ x ∈ l := by
  induction l with
  | nil => simp [insertLe]
  | cons b bs ih =>
    simp only [insertLe]
    split
    · simp
    · simp only [List.mem_cons, ih]
      tauto

theorem mem_insSort {α : Type} (le : α → α → Bool) (x : α) (l : List α) :
    x ∈ insSort le l ↔ x ∈ l := by
  induction l with
  | nil => simp [insSort]
  | cons a as ih => simp [insSort, mem_insertLe, ih]

theorem length_insertLe {α : Type} (le : α → α → Bool) (a : α) (l : List α) :
    (insertLe le a l).length = l.length + 1 := by
  induction l with
  | nil => rfl
  | cons b bs ih =>
    simp only [insertLe]
    split
    · rfl
    · simp [ih]

theorem length_insSort {α : Type} (le : α → α → Bool) (l : List α) :
    (insSort le l).length = l.length := by
  induction l with
  | nil => rfl
  | cons a as ih => simp [insSort, length_insertLe, ih]

theorem nodup_insertLe {α : Type} (le : α → α → Bool) (a : α) (l : List α)
    (ha : a ∉ l) (hl : l.Nodup) : (insertLe le a l).Nodup := by
  induction l with
  | nil => simp [insertLe]
  | cons b bs ih =>
    simp only [insertLe]
    split
    · exact List.nodup_cons.mpr ⟨ha, hl⟩
    · rw [List.nodup_cons] at hl
      refine List.nodup_cons.mpr ⟨?_, ih (fun h => ha (List.mem_cons_of_mem b h)) hl.2⟩
      rw [mem_insertLe]
      rintro (rfl | hb)
      · exact ha (List.mem_cons_self b bs)
      · exact hl.1 hb

theorem nodup_insSort {α : Type} (le : α → α → Bool) (l : List α) (h : l.Nodup) :
    (insSort le l).Nodup := by
  induction l with
  | nil => simp [insSort]
  | cons a as ih =>
    rw [List.nodup_cons] at h
    exact nodup_insertLe le a _ (fun hm => h.1 ((mem_insSort le a as).mp hm)) (ih h.2)

theorem mem_dedupAux {α : Type} [DecidableEq α] (x : α) (l : List α) :
    ∀ seen : List α, x ∈ dedupAux seen l ↔ x ∈ l ∧ x ∉ seen := by
  induction l with
  | nil => intro seen; simp [dedupAux]
  | cons a as ih =>
    intro seen
    simp only [dedupAux]
    split
    · rw [ih]
      by_cases hx : x = a
      · subst hx; simp_all
      · simp [hx]
    · simp only [List.mem_cons, ih (a :: seen)]
      by_cases hx : x = a
      · subst hx; simp_all
      · simp [hx]

theorem mem_dedupFirst {α : Type} [DecidableEq α] (x : α) (l : List α) :
    x ∈ dedupFirst l ↔ x ∈ l := by
  rw [dedupFirst, mem_dedupAux]
  simp

theorem nodup_dedupAux {α : Type} [DecidableEq α] (l : List α) :
    ∀ seen : List α, (dedupAux seen l).Nodup := by
  induction l with
  | nil => intro seen; simp [dedupAux]
  | cons a as ih =>
    intro seen
    simp only [dedupAux]
    split
    · exact ih seen
    · refine List.nodup_cons.mpr ⟨?_, ih (a :: seen)⟩
      rw [mem_dedupAux]
      rintro ⟨-, hns⟩
      exact hns (List.mem_cons_self a seen)

theorem nodup_dedupFirst {α : Type} [DecidableEq α] (l : List α) :
    (dedupFirst l).Nodup := nodup_dedupAux l []

theorem mem_pivotKeys {κ : Type} [DecidableEq κ] (le : κ → κ → Bool)
    (key : Row → Option κ) (rows : List Row) (k : κ) :
    k ∈ pivotKeys le key rows ↔ ∃ r ∈ rows, key r = some k := by
  rw [pivotKeys, mem_insSort, mem_dedupFirst, List.mem_filterMap]

theorem nodup_pivotKeys {κ : Type} [DecidableEq κ] (le : κ → κ → Bool)
    (key : Row → Option κ) (rows : List Row) :
    (pivotKeys le key rows).Nodup :=
  nodup_insSort le _ (nodup_dedupFirst _)

/-! ## Lemmas about the pivot engine -/

theorem pivotCell_count_isSome {κ₁ κ₂ : Type} [DecidableEq κ₁] [DecidableEq κ₂]
    (rows : List Row) (val : Row → Option ℚ)
    (rkey : Row → Option κ₁) (ckey : Row → Option κ₂)
    (rk : κ₁) (ck : κ₂) (r : Row) (hr : r ∈ rows)
    (h1 : rkey r = some rk) (h2 : ckey r = some ck) :
    (pivotCell rows val rkey ckey .count rk ck).isSome := by
  unfold pivotCell
  have hmem : r ∈ rows.filter (fun r => decide (rkey r = some rk) && decide (ckey r = some ck)) :=
    List.mem_filter.mpr ⟨hr, by simp [h1, h2]⟩
  have hne : (rows.filter (fun r => decide (rkey r = some rk) && decide (ckey r = some ck))).isEmpty = false := by
    rw [List.isEmpty_eq_false]
    exact List.ne_nil_of_mem hmem
  simp [hne]

theorem pivotCell_isSome_exists {κ₁ κ₂ : Type} [DecidableEq κ₁] [DecidableEq κ₂]
    (rows : List Row) (val : Row → Option ℚ)
    (rkey : Row → Option κ₁) (ckey : Row → Option κ₂) (agg : Agg)
    (rk : κ₁) (ck : κ₂)
    (h : (pivotCell rows val rkey ckey agg rk ck).isSome) :
    ∃ r ∈ rows, rkey r = some rk ∧ ckey r = some ck := by
  unfold pivotCell at h
  by_cases hne : (rows.filter (fun r => decide (rkey r = some rk) && decide (ckey r = some ck))).isEmpty
  · rw [if_pos hne] at h
    simp at h
  · rw [Bool.not_eq_true, List.isEmpty_eq_false_iff_exists_mem] at hne
    obtain ⟨r, hr⟩ := hne
    have := List.mem_filter.mp hr
    exact ⟨r, this.1, by simpa using this.2⟩

theorem mem_pivotKeptRows_count {κ₁ κ₂ : Type} [DecidableEq κ₁] [DecidableEq κ₂]
    (rows : List Row) (val : Row → Option ℚ)
    (rkey : Row → Option κ₁) (ckey : Row → Option κ₂)
    (rle : κ₁ → κ₁ → Bool) (cle : κ₂ → κ₂ → Bool) (rk : κ₁) :
    rk ∈ pivotKeptRows rows val rkey ckey rle cle .count ↔
      ∃ r ∈ rows, rkey r = some rk ∧ (ckey r).isSome := by
  unfold pivotKeptRows
  rw [List.mem_filter]
  constructor
  · rintro ⟨-, hany⟩
    obtain ⟨ck, -, hcell⟩ := List.any_eq_true.mp hany
    obtain ⟨r, hr, h1, h2⟩ := pivotCell_isSome_exists rows val rkey ckey .count rk ck hcell
    exact ⟨r, hr, h1, by simp [h2]⟩
  · rintro ⟨r, hr, h1, h2⟩
    obtain ⟨ck, hck⟩ := Option.isSome_iff_exists.mp h2
    refine ⟨(mem_pivotKeys rle rkey rows rk).mpr ⟨r, hr, h1⟩, List.any_eq_true.mpr ?_⟩
    exact ⟨ck, (mem_pivotKeys cle ckey rows ck).mpr ⟨r, hr, hck⟩,
      pivotCell_count_isSome rows val rkey ckey rk ck r hr h1 hck⟩

theorem nodup_pivotKeptRows {κ₁ κ₂ : Type} [DecidableEq κ₁] [DecidableEq κ₂]
    (rows : List Row) (val : Row → Option ℚ)
    (rkey : Row → Option κ₁) (ckey : Row → Option κ₂)
    (rle : κ₁ → κ₁ → Bool) (cle : κ₂ → κ₂ → Bool) (agg : Agg) :
    (pivotKeptRows rows val rkey ckey rle cle agg).Nodup :=
  (nodup_pivotKeys rle rkey rows).filter _

theorem dayName_mem (dt : DateTime) : dayName dt ∈ dayNames := by
  have h0 : 0 ≤ dt.weekday % 7 := Int.emod_nonneg _ (by norm_num)
  have h7 : dt.weekday % 7 < 7 := Int.emod_lt_of_pos _ (by norm_num)
  have hlt : (dt.weekday % 7).toNat < dayNames.length := by
    simp only [dayNames, List.length]
    omega
  rw [dayName, List.getD_eq_getElem dayNames "Monday" hlt]
  exact List.getElem_mem hlt

/-! ## Lemmas about the feature pipeline -/

theorem mem_afDayOfWeek_cols {c : String} (f : Frame) (h : c ∈ f.cols) :
    c ∈ (afDayOfWeek f).cols := by
  unfold afDayOfWeek
  split
  · exact List.mem_append.mpr (Or.inl h)
  · exact h

theorem mem_afHour_cols {c : String} (f : Frame) (h : c ∈ f.cols) :
    c ∈ (afHour f).cols := by
  unfold afHour
  split
  · exact List.mem_append.mpr (Or.inl h)
  · exact h

theorem mem_afMonthSeason_cols {c : String} (f : Frame) (h : c ∈ f.cols) :
    c ∈ (afMonthSeason f).cols := by
  unfold afMonthSeason
  split
  · exact List.mem_append.mpr (Or.inl h)
  · exact h

theorem mem_afPriceCategory_cols {c : String} (f : Frame) (h : c ∈ f.cols) :
    c ∈ (afPriceCategory f).cols :=
  List.mem_append.mpr (Or.inl h)

theorem mem_afOccupancy_cols {c : String} (f : Frame) (h : c ∈ f.cols) :
    c ∈ (afOccupancy f).cols := by
  unfold afOccupancy
  split
  · exact List.mem_append.mpr (Or.inl h)
  · exact h

theorem cleanData_ok (f : Frame) (hp : "price" ∈ f.cols) (ha : "airline" ∈ f.cols) :
    ∃ rs, cleanData f = .ok ⟨rs, f.cols⟩ := by
  simp only [cleanData, hp, ha]
  simp

theorem addFeatures_ok (f : Frame) (hp : "price" ∈ f.cols) (hr : "route" ∈ f.cols) :
    ∃ g, addFeatures f = .ok g ∧ "price" ∈ g.cols := by
  have hp1 : "price" ∈ (afMonthSeason (afHour (afDayOfWeek f))).cols :=
    mem_afMonthSeason_cols _ (mem_afHour_cols _ (mem_afDayOfWeek_cols _ hp))
  have hr1 : "route" ∈ (afMonthSeason (afHour (afDayOfWeek f))).cols :=
    mem_afMonthSeason_cols _ (mem_afHour_cols _ (mem_afDayOfWeek_cols _ hr))
  have hr2 : "route" ∈ (afOccupancy (afPriceCategory (afMonthSeason (afHour (afDayOfWeek f))))).cols :=
    mem_afOccupancy_cols _ (mem_afPriceCategory_cols _ hr1)
  have hp2 : "price" ∈ (afRouteDistance (afOccupancy (afPriceCategory (afMonthSeason (afHour (afDayOfWeek f)))))).cols :=
    List.mem_append.mpr (Or.inl (mem_afOccupancy_cols _ (mem_afPriceCategory_cols _ hp1)))
  refine ⟨_, ?_, hp2⟩
  simp only [addFeatures, hp1, hr2]
  simp

theorem calculateMetrics_ok (f : Frame) (hp : "price" ∈ f.cols) :
    ∃ g, calculateMetrics f = .ok g := by
  unfold calculateMetrics
  by_cases h : "route_distance" ∈ f.cols
  · rw [if_pos h, if_neg (by simp [hp])]
    exact ⟨_, rfl⟩
  · rw [if_neg h]
    exact ⟨_, rfl⟩

theorem mkFrame_mem_price (raw : List Row) (h : ∃ r ∈ raw, r.price.isSome) :
    "price" ∈ (mkFrame raw).cols := by
  apply List.mem_filter.mpr
  refine ⟨by decide, ?_⟩
  have he : rawColPresent "price" = (fun r : Row => r.price.isSome) := funext fun r => rfl
  show raw.any (rawColPresent "price") = true
  rw [he]
  exact List.any_eq_true.mpr (by simpa using h)

theorem mkFrame_mem_airline (raw : List Row) (h : ∃ r ∈ raw, r.airline.isSome) :
    "airline" ∈ (mkFrame raw).cols := by
  apply List.mem_filter.mpr
  refine ⟨by decide, ?_⟩
  have he : rawColPresent "airline" = (fun r : Row => r.airline.isSome) := funext fun r => rfl
  show raw.any (rawColPresent "airline") = true
  rw [he]
  exact List.any_eq_true.mpr (by simpa using h)

theorem mkFrame_mem_route (raw : List Row) (h : ∃ r ∈ raw, r.route.isSome) :
    "route" ∈ (mkFrame raw).cols := by
  apply List.mem_filter.mpr
  refine ⟨by decide, ?_⟩
  have he : rawColPresent "route" = (fun r : Row => r.route.isSome) := funext fun r => rfl
  show raw.any (rawColPresent "route") = true
  rw [he]
  exact List.any_eq_true.mpr (by simpa using h)

theorem processPipeline_ok (raw : List Row)
    (hp : ∃ r ∈ raw, r.price.isSome) (ha : ∃ r ∈ raw, r.airline.isSome)
    (hr : ∃ r ∈ raw, r.route.isSome) :
    ∃ t, processPipeline raw = .ok t := by
  have h1 := mkFrame_mem_price raw hp
  have h2 := mkFrame_mem_airline raw ha
  have h3 := mkFrame_mem_route raw hr
  obtain ⟨rs, hclean⟩ := cleanData_ok (mkFrame raw) h1 h2
  obtain ⟨g, hadd, hpg⟩ := addFeatures_ok ⟨rs, (mkFrame raw).cols⟩ h1 h3
  obtain ⟨t, hmet⟩ := calculateMetrics_ok g hpg
  exact ⟨t, by simp [processPipeline, hclean, hadd, hmet, bind, Except.bind]⟩

theorem processFlightData_ok (st : Option Frame) (raw : List Row)
    (hp : ∃ r ∈ raw, r.price.isSome) (ha : ∃ r ∈ raw, r.airline.isSome)
    (hr : ∃ r ∈ raw, r.route.isSome) :
    ∃ t, (processFlightData st raw).2 = .ok t := by
  unfold processFlightData
  by_cases he : raw.isEmpty
  · exact ⟨emptyFrame, by simp [he]⟩
  · obtain ⟨t, hpipe⟩ := processPipeline_ok raw hp ha hr
    exact ⟨t, by simp [he, hpipe]⟩

/-! ## Lemmas about means, minima and idxmin -/

theorem meanOpt_isSome_of (xs : List (Option ℚ)) (x : Option ℚ)
    (hx : x ∈ xs) (hs : x.isSome) : (meanOpt xs).isSome := by
  unfold meanOpt
  obtain ⟨p, hp⟩ := Option.isSome_iff_exists.mp hs
  have hmem : p ∈ xs.filterMap id := List.mem_filterMap.mpr ⟨x, hx, by rw [hp]; rfl⟩
  have hne : (xs.filterMap id).isEmpty = false := by
    rw [List.isEmpty_eq_false]
    exact List.ne_nil_of_mem hmem
  simp [hne]

theorem foldlMin_isSome (v : List ℚ) (acc : Option ℚ)
    (h : acc.isSome ∨ v ≠ []) :
    (v.foldl (fun acc x =>
      match acc with
      | none => some x
      | some m => some (if x < m then x else m)) acc).isSome := by
  induction v generalizing acc with
  | nil =>
    cases h with
    | inl h => exact h
    | inr h => exact absurd rfl h
  | cons x xs ih =>
    apply ih
    left
    cases acc <;> simp

theorem minOpt_isSome (xs : List (Option ℚ)) (x : Option ℚ)
    (hx : x ∈ xs) (hs : x.isSome) : (minOpt xs).isSome := by
  unfold minOpt
  apply foldlMin_isSome
  right
  obtain ⟨p, hp⟩ := Option.isSome_iff_exists.mp hs
  exact List.ne_nil_of_mem (List.mem_filterMap.mpr ⟨x, hx, by rw [hp]; rfl⟩)

theorem idxminStep_isSome {κ : Type} (acc : Option (κ × ℚ)) (kv : κ × Option ℚ)
    (h : acc.isSome ∨ kv.2.isSome) : (idxminStep acc kv).isSome := by
  cases hkv : kv.2 with
  | none =>
    have hstep : idxminStep acc kv = acc := by
      unfold idxminStep
      rw [hkv]
    rw [hstep]
    cases h with
    | inl h => exact h
    | inr h => rw [hkv] at h; simp at h
  | some x =>
    cases acc with
    | none =>
      have hstep : idxminStep none kv = some (kv.1, x) := by
        unfold idxminStep
        rw [hkv]
      rw [hstep]
      rfl
    | some best =>
      have hstep : idxminStep (some best) kv =
          if x < best.2 then some (kv.1, x) else some best := by
        unfold idxminStep
        rw [hkv]
      rw [hstep]
      split <;> rfl

theorem foldlIdx_isSome {κ : Type} (l : List (κ × Option ℚ)) (acc : Option (κ × ℚ))
    (h : acc.isSome ∨ ∃ kv ∈ l, kv.2.isSome) :
    (l.foldl idxminStep acc).isSome := by
  induction l generalizing acc with
  | nil =>
    cases h with
    | inl h => exact h
    | inr h => simp at h
  | cons kv kvs ih =>
    apply ih
    rcases h with hacc | ⟨kv2, hmem, hs⟩
    · exact Or.inl (idxminStep_isSome acc kv (Or.inl hacc))
    · rcases List.mem_cons.mp hmem with heq | htail
      · subst heq
        exact Or.inl (idxminStep_isSome acc kv2 (Or.inr hs))
      · exact Or.inr ⟨kv2, htail, hs⟩

theorem idxminOpt_isSome {κ : Type} (l : List (κ × Option ℚ))
    (h : ∃ kv ∈ l, kv.2.isSome) : (idxminOpt l).isSome := by
  obtain ⟨pair, hp⟩ := Option.isSome_iff_exists.mp (foldlIdx_isSome l none (Or.inr h))
  unfold idxminOpt
  rw [hp]
  rfl

theorem perm_insertLe {α : Type} (le : α → α → Bool) (a : α) (l : List α) :
    (insertLe le a l).Perm (a :: l) := by
  induction l with
  | nil => simp [insertLe]
  | cons b bs ih =>
    simp only [insertLe]
    split
    · exact List.Perm.refl _
    · exact (List.Perm.cons b ih).trans (List.Perm.swap a b bs)

theorem perm_insSort {α : Type} (le : α → α → Bool) (l : List α) :
    (insSort le l).Perm l := by
  induction l with
  | nil => simp [insSort]
  | cons a as ih =>
    exact (perm_insertLe le a (insSort le as)).trans (List.Perm.cons a ih)

theorem pairwise_insertLe {α : Type} (le : α → α → Bool)
    (htot : ∀ a b, le a b = true ∨ le b a = true)
    (htrans : ∀ a b c, le a b = true → le b c = true → le a c = true)
    (x : α) (l : List α) (h : l.Pairwise (fun a b => le a b = true)) :
    (insertLe le x l).Pairwise (fun a b => le a b = true) := by
  induction l with
  | nil => simp [insertLe]
  | cons b bs ih =>
    rw [List.pairwise_cons] at h
    obtain ⟨hb, hbs⟩ := h
    simp only [insertLe]
    split
    next hxb =>
      refine List.Pairwise.cons ?_ (List.Pairwise.cons hb hbs)
      intro y hy
      rcases List.mem_cons.mp hy with rfl | hmem
      · exact hxb
      · exact htrans x b y hxb (hb y hmem)
    next hxb =>
      have hbx : le b x = true := (htot x b).resolve_left hxb
      refine List.Pairwise.cons ?_ (ih hbs)
      intro y hy
      rcases (mem_insertLe le x y bs).mp hy with rfl | hmem
      · exact hbx
      · exact hb y hmem

theorem pairwise_insSort {α : Type} (le : α → α → Bool)
    (htot : ∀ a b, le a b = true ∨ le b a = true)
    (htrans : ∀ a b c, le a b = true → le b c = true → le a c = true)
    (l : List α) :
    (insSort le l).Pairwise (fun a b => le a b = true) := by
  induction l with
  | nil => simp [insSort]
  | cons a as ih => exact pairwise_insertLe le htot htrans a _ ih

theorem descNanLast_total (a b : Option ℚ) :
    descNanLast a b = true ∨ descNanLast b a = true := by
  cases a <;> cases b <;> simp [descNanLast]
  exact le_total _ _

theorem descNanLast_trans (a b c : Option ℚ)
    (h1 : descNanLast a b = true) (h2 : descNanLast b c = true) :
    descNanLast a c = true := by
  cases a <;> cases b <;> cases c <;> simp_all [descNanLast]
  exact le_trans h2 h1

theorem idxminFold_spec {κ : Type} (l : List (κ × Option ℚ)) :
    ∀ (acc : Option (κ × ℚ)) (k : κ) (v : ℚ),
      l.foldl idxminStep acc = some (k, v) →
      ((acc = some (k, v)) ∨ (k, some v) ∈ l) ∧
      (∀ kv ∈ l, ∀ y : ℚ, kv.2 = some y → v ≤ y) ∧
      (∀ k0 : κ, ∀ v0 : ℚ, acc = some (k0, v0) → v ≤ v0) := by
  induction l with
  | nil =>
    intro acc k v h
    simp only [List.foldl_nil] at h
    refine ⟨Or.inl h, by simp, ?_⟩
    intro k0 v0 h0
    rw [h0] at h
    have h2 : (k0, v0) = (k, v) := Option.some.inj h
    rw [Prod.mk.injEq] at h2
    exact le_of_eq h2.2.symm
  | cons hd tl ih =>
    intro acc k v h
    rw [List.foldl_cons] at h
    obtain ⟨ha, hb, hc⟩ := ih (idxminStep acc hd) k v h
    cases hhd : hd.2 with
    | none =>
      have hstep : idxminStep acc hd = acc := by
        unfold idxminStep
        rw [hhd]
      rw [hstep] at ha hc
      refine ⟨?_, ?_, hc⟩
      · rcases ha with h1 | h1
        · exact Or.inl h1
        · exact Or.inr (List.mem_cons_of_mem hd h1)
      · intro kv hkv y hy
        rcases List.mem_cons.mp hkv with rfl | hmem
        · rw [hhd] at hy
          exact absurd hy (by simp)
        · exact hb kv hmem y hy
    | some x =>
      cases hacc : acc with
      | none =>
        have hstep : idxminStep acc hd = some (hd.1, x) := by
          unfold idxminStep
          rw [hhd, hacc]
        rw [hstep] at ha hc
        refine ⟨?_, ?_, ?_⟩
        · right
          rcases ha with h1 | h1
          · have h2 : (hd.1, x) = (k, v) := Option.some.inj h1
            rw [Prod.mk.injEq] at h2
            have heq : (k, some v) = hd := by
              rw [← h2.1, ← h2.2, ← hhd]
            rw [heq]
            exact List.mem_cons_self hd tl
          · exact List.mem_cons_of_mem hd h1
        · intro kv hkv y hy
          rcases List.mem_cons.mp hkv with rfl | hmem
          · rw [hhd] at hy
            have hyx : y = x := (Option.some.inj hy).symm
            rw [hyx]
            exact hc kv.1 x rfl
          · exact hb kv hmem y hy
        · intro k0 v0 h0
          exact absurd h0 (by simp)
      | some best =>
        by_cases hlt : x < best.2
        · have hstep : idxminStep acc hd = some (hd.1, x) := by
            unfold idxminStep
            rw [hhd, hacc]
            simp [hlt]
          rw [hstep] at ha hc
          refine ⟨?_, ?_, ?_⟩
          · right
            rcases ha with h1 | h1
            · have h2 : (hd.1, x) = (k, v) := Option.some.inj h1
              rw [Prod.mk.injEq] at h2
              have heq : (k, some v) = hd := by
                rw [← h2.1, ← h2.2, ← hhd]
              rw [heq]
              exact List.mem_cons_self hd tl
            · exact List.mem_cons_of_mem hd h1
          · intro kv hkv y hy
            rcases List.mem_cons.mp hkv with rfl | hmem
            · rw [hhd] at hy
              have hyx : y = x := (Option.some.inj hy).symm
              rw [hyx]
              exact hc kv.1 x rfl
            · exact hb kv hmem y hy
          · intro k0 v0 h0
            have h2 : best = (k0, v0) := Option.some.inj h0
            have hvx : v ≤ x := hc hd.1 x rfl
            rw [h2] at hlt
            exact le_trans hvx (le_of_lt hlt)
        · have hstep : idxminStep acc hd = some best := by
            unfold idxminStep
            rw [hhd, hacc]
            simp [hlt]
          rw [hstep] at ha hc
          have hbb : v ≤ best.2 := hc best.1 best.2 (by rw [Prod.mk.eta])
          refine ⟨?_, ?_, ?_⟩
          · rcases ha with h1 | h1
            · exact Or.inl h1
            · exact Or.inr (List.mem_cons_of_mem hd h1)
          · intro kv hkv y hy
            rcases List.mem_cons.mp hkv with rfl | hmem
            · rw [hhd] at hy
              have hyx : y = x := (Option.some.inj hy).symm
              rw [hyx]
              exact le_trans hbb (le_of_not_lt hlt)
            · exact hb kv hmem y hy
          · intro k0 v0 h0
            have h2 : best = (k0, v0) := Option.some.inj h0
            rw [h2] at hbb
            exact hbb

theorem minFold_spec (l : List ℚ) :
    ∀ (acc : Option ℚ) (m : ℚ),
      l.foldl (fun acc x =>
        match acc with
        | none => some x
        | some m => some (if x < m then x else m)) acc = some m →
      (acc = some m ∨ m ∈ l) ∧ (∀ y ∈ l, m ≤ y) ∧ (∀ a : ℚ, acc = some a → m ≤ a) := by
  induction l with
  | nil =>
    intro acc m h
    simp only [List.foldl_nil] at h
    refine ⟨Or.inl h, by simp, ?_⟩
    intro a h0
    rw [h0] at h
    exact le_of_eq (Option.some.inj h).symm
  | cons x xs ih =>
    intro acc m h
    rw [List.foldl_cons] at h
    cases hacc : acc with
    | none =>
      rw [hacc] at h
      obtain ⟨ha, hb, hc⟩ := ih (some x) m h
      refine ⟨?_, ?_, ?_⟩
      · rcases ha with h1 | h1
        · exact Or.inr (by rw [← Option.some.inj h1]; exact List.mem_cons_self x xs)
        · exact Or.inr (List.mem_cons_of_mem x h1)
      · intro y hy
        rcases List.mem_cons.mp hy with rfl | hmem
        · exact hc y rfl
        · exact hb y hmem
      · intro a h0
        exact absurd h0 (by simp)
    | some b =>
      rw [hacc] at h
      simp only [] at h
      by_cases hlt : x < b
      · rw [if_pos hlt] at h
        obtain ⟨ha, hb2, hc⟩ := ih (some x) m h
        refine ⟨?_, ?_, ?_⟩
        · rcases ha with h1 | h1
          · exact Or.inr (by rw [← Option.some.inj h1]; exact List.mem_cons_self x xs)
          · exact Or.inr (List.mem_cons_of_mem x h1)
        · intro y hy
          rcases List.mem_cons.mp hy with rfl | hmem
          · exact hc y rfl
          · exact hb2 y hmem
        · intro a h0
          have hab : b = a := Option.some.inj h0
          rw [← hab]
          exact le_trans (hc x rfl) (le_of_lt hlt)
      · rw [if_neg hlt] at h
        obtain ⟨ha, hb2, hc⟩ := ih (some b) m h
        refine ⟨?_, ?_, ?_⟩
        · rcases ha with h1 | h1
          · exact Or.inl h1
          · exact Or.inr (List.mem_cons_of_mem x h1)
        · intro y hy
          rcases List.mem_cons.mp hy with rfl | hmem
          · exact le_trans (hc b rfl) (le_of_not_lt hlt)
          · exact hb2 y hmem
        · intro a h0
          have hab : b = a := Option.some.inj h0
          rw [← hab]
          exact hc b rfl

theorem minOpt_spec (xs : List (Option ℚ)) (m : ℚ) (h : minOpt xs = some m) :
    some m ∈ xs ∧ ∀ y : ℚ, some y ∈ xs → m ≤ y := by
  unfold minOpt at h
  obtain ⟨ha, hb, -⟩ := minFold_spec (xs.filterMap id) none m h
  constructor
  · rcases ha with h1 | h1
    · exact absurd h1 (by simp)
    · obtain ⟨x, hx, hxm⟩ := List.mem_filterMap.mp h1
      have hxe : x = some m := hxm
      rw [← hxe]
      exact hx
  · intro y hy
    exact hb y (List.mem_filterMap.mpr ⟨some y, hy, rfl⟩)

/-! ## Lemmas about the recommendation pieces and the mock narrative -/

theorem priceRecsOf_counts (m : ℚ) :
    (priceRecsOf (some m)).countP (fun r => r.rtype == "price") = (if 400 < m then 1 else 0)
    ∧ (priceRecsOf (some m)).countP (fun r => r.rtype == "demand") = 0
    ∧ (priceRecsOf (some m)).countP (fun r => r.rtype == "route") = 0
    ∧ (priceRecsOf (some m)).countP (fun r => r.rtype == "airline") = 0 := by
  unfold priceRecsOf
  by_cases h : 400 < m <;> simp [h, List.countP_cons]

theorem weekendRecsOf_spec (f : Frame) (hne : f.rows ≠ []) :
    ∃ W, weekendRecsOf f = .ok W ∧
      W.countP (fun r => r.rtype == "demand") =
        (if "is_weekend" ∈ f.cols ∧ mkRat 3 5 < weekendShareOf f then 1 else 0)
      ∧ W.countP (fun r => r.rtype == "price") = 0
      ∧ W.countP (fun r => r.rtype == "route") = 0
      ∧ W.countP (fun r => r.rtype == "airline") = 0 := by
  unfold weekendRecsOf
  have hlen : ¬(f.rows.length = 0) := by
    simp [List.length_eq_zero, hne]
  by_cases hw : "is_weekend" ∈ f.cols
  · rw [if_pos hw, if_neg hlen]
    by_cases hs : mkRat 3 5 < weekendShareOf f
    · rw [if_pos hs]
      exact ⟨_, rfl, by simp [hw, hs, List.countP_cons], by simp [List.countP_cons],
        by simp [List.countP_cons], by simp [List.countP_cons]⟩
    · rw [if_neg hs]
      exact ⟨[], rfl, by simp [hw, hs], by simp, by simp, by simp⟩
  · rw [if_neg hw]
    exact ⟨[], rfl, by simp [hw], by simp, by simp, by simp⟩

theorem routeRecsOf_counts (f : Frame) :
    (routeRecsOf f).countP (fun r => r.rtype == "route") =
      min 2 (pivotKeys strLe (fun r => r.route) f.rows).length
    ∧ (routeRecsOf f).countP (fun r => r.rtype == "price") = 0
    ∧ (routeRecsOf f).countP (fun r => r.rtype == "demand") = 0
    ∧ (routeRecsOf f).countP (fun r => r.rtype == "airline") = 0 := by
  have hlen : (routeRecsOf f).length =
      min 2 (pivotKeys strLe (fun r => r.route) f.rows).length := by
    unfold routeRecsOf
    rw [List.length_map, List.length_take, sortPairsDesc, length_insSort]
    unfold groupMeanBy
    rw [List.length_map]
  refine ⟨?_, ?_, ?_, ?_⟩
  · rw [← hlen]
    apply List.countP_eq_length.mpr
    intro rec hmem
    unfold routeRecsOf at hmem
    obtain ⟨kv, -, hkv⟩ := List.mem_map.mp hmem
    rw [← hkv]
    rfl
  all_goals
    apply List.countP_eq_zero.mpr
    intro rec hmem
    unfold routeRecsOf at hmem
    obtain ⟨kv, -, hkv⟩ := List.mem_map.mp hmem
    rw [← hkv]
    simp

theorem mockAiAnalysis_keys (f : Frame) (ai : JVal) (h : mockAiAnalysis f = .ok ai) :
    ai.keys = ["trends", "pricing", "demand", "recommendations", "risks",
               "market_opportunities", "competitive_analysis", "financial_insights"] := by
  unfold mockAiAnalysis at h
  simp only [bind, Except.bind] at h
  cases hs : mockAiStats f with
  | error e =>
    rw [hs] at h
    exact absurd h (by simp)
  | ok st =>
    rw [hs] at h
    simp only [Except.ok.injEq] at h
    rw [← h]
    rfl


/-! ## Lemmas about the heatmap views -/

theorem nodupBool_length_two {l : List Bool} (h : l.Nodup) :
    l.length = 2 ↔ (false ∈ l ∧ true ∈ l) := by
  match l with
  | [] => simp
  | [a] => cases a <;> simp
  | [a, b] =>
    rw [List.nodup_cons] at h
    cases a <;> cases b <;> simp_all
  | a :: b :: c :: t =>
    simp only [List.nodup_cons, List.mem_cons] at h
    cases a <;> cases b <;> cases c <;> simp_all

theorem dayHourCountPivot_rowLabels (f : Frame) :
    (dayHourCountPivot f).rowLabels =
      pivotKeptRows f.rows (fun r => r.price)
        (fun r => r.date.map dayName) (fun r => r.date.map (fun d => d.hour))
        strLe zLe .count := by
  simp [dayHourCountPivot, pivotTable]

theorem weekendHourPivot_rowLabels (f : Frame) :
    (weekendHourPivot f).rowLabels =
      (pivotKeptRows f.rows (fun r => r.price)
        (fun r => r.is_weekend) (fun r => r.hour) bLe zLe .count).map
        (fun b => toString b) := by
  simp [weekendHourPivot, pivotTable]

theorem weekendViewRelabel_ok_iff (f : Frame) :
    ((∃ r ∈ f.rows, r.is_weekend = some false ∧ r.hour.isSome) ∧
     (∃ r ∈ f.rows, r.is_weekend = some true ∧ r.hour.isSome)) ↔
    (∃ m, weekendViewRelabel f = .ok m ∧ m.rowLabels = ["Weekday", "Weekend"]) := by
  have hnd : (pivotKeptRows f.rows (fun r => r.price)
      (fun r => r.is_weekend) (fun r => r.hour) bLe zLe .count).Nodup :=
    nodup_pivotKeptRows _ _ _ _ _ _ _
  have hlen : (weekendHourPivot f).rowLabels.length =
      (pivotKeptRows f.rows (fun r => r.price)
        (fun r => r.is_weekend) (fun r => r.hour) bLe zLe .count).length := by
    rw [weekendHourPivot_rowLabels, List.length_map]
  constructor
  · rintro ⟨hf, ht⟩
    have hmf := (mem_pivotKeptRows_count f.rows (fun r => r.price)
      (fun r => r.is_weekend) (fun r => r.hour) bLe zLe false).mpr hf
    have hmt := (mem_pivotKeptRows_count f.rows (fun r => r.price)
      (fun r => r.is_weekend) (fun r => r.hour) bLe zLe true).mpr ht
    have h2 : (weekendHourPivot f).rowLabels.length = 2 := by
      rw [hlen]
      exact (nodupBool_length_two hnd).mpr ⟨hmf, hmt⟩
    refine ⟨{ weekendHourPivot f with rowLabels := ["Weekday", "Weekend"] }, ?_, rfl⟩
    rw [weekendViewRelabel]
    simp only [h2, if_pos]
  · rintro ⟨m, hok, -⟩
    rw [weekendViewRelabel] at hok
    by_cases h2 : (weekendHourPivot f).rowLabels.length = 2
    · rw [hlen] at h2
      obtain ⟨hmf, hmt⟩ := (nodupBool_length_two hnd).mp h2
      exact ⟨(mem_pivotKeptRows_count f.rows (fun r => r.price)
          (fun r => r.is_weekend) (fun r => r.hour) bLe zLe false).mp hmf,
        (mem_pivotKeptRows_count f.rows (fun r => r.price)
          (fun r => r.is_weekend) (fun r => r.hour) bLe zLe true).mp hmt⟩
    · rw [if_neg h2] at hok
      exact absurd hok (by simp)

theorem varOpt_single (x : Option ℚ) (p : ℚ) (h : x = some p) : varOpt [x] = none := by
  subst h
  rfl

theorem cleanData_single_rows (r : Row) (p : ℚ) (hp : r.price = some p)
    (f : Frame) (hrows : f.rows = [r]) (g : Frame)
    (h : cleanData f = .ok g) : g.rows = [] := by
  unfold cleanData at h
  rw [hrows] at h
  by_cases hc1 : "price" ∉ f.cols
  · rw [if_pos hc1] at h
    exact absurd h (by simp)
  · rw [if_neg hc1] at h
    by_cases hc2 : "airline" ∉ f.cols
    · rw [if_pos hc2] at h
      exact absurd h (by simp)
    · rw [if_neg hc2] at h
      simp only [Except.ok.injEq] at h
      have hded : dedupFirst [r] = [r] := rfl
      rw [hded] at h
      rw [← h]
      simp [varOpt, hp]

theorem addFeatures_nil_rows (f : Frame) (hrows : f.rows = []) (g : Frame)
    (h : addFeatures f = .ok g) : g.rows = [] := by
  have h1 : (afDayOfWeek f).rows = [] := by
    unfold afDayOfWeek
    split <;> simp [hrows]
  have h2 : (afHour (afDayOfWeek f)).rows = [] := by
    unfold afHour
    split <;> simp [h1]
  have h3 : (afMonthSeason (afHour (afDayOfWeek f))).rows = [] := by
    unfold afMonthSeason
    split <;> simp [h2]
  unfold addFeatures at h
  by_cases hc1 : "price" ∉ (afMonthSeason (afHour (afDayOfWeek f))).cols
  · rw [if_pos hc1] at h
    exact absurd h (by simp)
  · rw [if_neg hc1] at h
    have h4 : (afPriceCategory (afMonthSeason (afHour (afDayOfWeek f)))).rows = [] := by
      unfold afPriceCategory
      simp [h3]
    have h5 : (afOccupancy (afPriceCategory (afMonthSeason (afHour (afDayOfWeek f))))).rows = [] := by
      unfold afOccupancy
      split <;> simp [h4]
    by_cases hc2 : "route" ∉ (afOccupancy (afPriceCategory (afMonthSeason (afHour (afDayOfWeek f))))).cols
    · rw [if_pos hc2] at h
      exact absurd h (by simp)
    · rw [if_neg hc2] at h
      simp only [Except.ok.injEq] at h
      rw [← h]
      unfold afRouteDistance
      simp [h5]

theorem metricsTimePart_nil_rows (f : Frame) (hrows : f.rows = []) :
    (metricsTimePart f).rows = [] := by
  unfold metricsTimePart
  split
  all_goals simp only [hrows, List.map_nil]
  all_goals split
  all_goals simp [hrows]

theorem calculateMetrics_nil_rows (f : Frame) (hrows : f.rows = []) (g : Frame)
    (h : calculateMetrics f = .ok g) : g.rows = [] := by
  unfold calculateMetrics at h
  by_cases hc1 : "route_distance" ∈ f.cols
  · rw [if_pos hc1] at h
    by_cases hc2 : "price" ∉ f.cols
    · rw [if_pos hc2] at h
      exact absurd h (by simp)
    · rw [if_neg hc2] at h
      simp only [Except.ok.injEq] at h
      rw [← h]
      exact metricsTimePart_nil_rows _ (by simp [hrows])
  · rw [if_neg hc1] at h
    simp only [Except.ok.injEq] at h
    rw [← h]
    exact metricsTimePart_nil_rows _ hrows

/-! ## The claims -/

/-- C1: the claim says a one-record batch skips the price-outlier filter and
the record survives enrichment.  The code instead computes the sample
standard deviation of a single observation, which is NaN; both NaN
comparisons of the filter are false, so EVERY single-record batch (carrying
the mandatory price, airline and route fields) is silently emptied: the
pipeline succeeds but returns a table with zero rows (first conjunct), and
in particular the concrete batch `[{price 300, airline "Qantas", route
"SYD-MEL"}]` yields exactly the enriched empty table shown (second
conjunct).  This contradicts the documented intent of the code's own
outlier filter, which says a lone record is kept. -/
theorem singleRecordBatch_is_dropped :
    (∀ r : Row, r.price.isSome → r.airline.isSome → r.route.isSome →
      ∃ t, (processFlightData none [r]).2 = .ok t ∧ t.rows = []) ∧
    (processFlightData none [rowC1]).2 =
      .ok { rows := [],
            cols := ["price", "airline", "route", "price_category",
                     "route_distance", "price_per_km"] } := by
  constructor
  · intro r hp ha hr
    obtain ⟨p, hpp⟩ := Option.isSome_iff_exists.mp hp
    have hmem : r ∈ [r] := List.mem_singleton.mpr rfl
    obtain ⟨t, ht⟩ :=
      processFlightData_ok none [r] ⟨r, hmem, hp⟩ ⟨r, hmem, ha⟩ ⟨r, hmem, hr⟩
    refine ⟨t, ht, ?_⟩
    unfold processFlightData at ht
    rw [if_neg (by simp)] at ht
    unfold processPipeline at ht
    simp only [bind, Except.bind] at ht
    cases hclean : cleanData (mkFrame [r]) with
    | error e => simp [hclean] at ht
    | ok g1 =>
      simp only [hclean] at ht
      have hg1 : g1.rows = [] :=
        cleanData_single_rows r p hpp (mkFrame [r]) rfl g1 hclean
      cases hadd : addFeatures g1 with
      | error e => simp [hadd] at ht
      | ok g2 =>
        simp only [hadd] at ht
        cases hcm : calculateMetrics g2 with
        | error e => simp [hcm] at ht
        | ok g3 =>
          simp only [hcm] at ht
          have hgt : g3 = t := by simpa using ht
          rw [← hgt]
          exact calculateMetrics_nil_rows g2
            (addFeatures_nil_rows g1 hg1 g2 hadd) g3 hcm
  · decide

/-- C1 witness: the general drop statement instantiated at the concrete
single-record batch, each hypothesis discharged by evaluation. -/
theorem singleRecordBatch_is_dropped_witness :
    ∃ t, (processFlightData none [rowC1]).2 = .ok t ∧ t.rows = [] :=
  singleRecordBatch_is_dropped.1 rowC1 (by decide) (by decide) (by decide)

/-- C9: `process_flight_data` is deterministic across calls: running the
same raw batch a second time, from the state left by the first call, gives
exactly the same result, the overwritten `processed_data` reference
notwithstanding. -/
theorem processFlightData_deterministic (st : Option Frame) (raw : List Row) :
    (processFlightData (processFlightData st raw).1 raw).2 =
      (processFlightData st raw).2 := by
  unfold processFlightData
  by_cases he : raw.isEmpty
  · simp [he]
  · simp only [he, Bool.false_eq_true, if_false]
    cases hp : processPipeline raw <;> simp [hp]

/-- C10: on a non-empty batch none of whose records carries a price field,
the price column is absent from the DataFrame and the cleaning step raises
`KeyError` at `df["price"]`, so `process_flight_data` raises rather than
returning a table. -/
theorem missing_price_field_raises (st : Option Frame) (raw : List Row)
    (hne : raw ≠ []) (hp : ∀ r ∈ raw, r.price = none) :
    (processFlightData st raw).2 = .error "KeyError: price" := by
  have hempty : ¬(raw.isEmpty = true) := by
    simp [List.isEmpty_iff, hne]
  have hcol : "price" ∉ (mkFrame raw).cols := by
    intro hmem
    have hany := (List.mem_filter.mp hmem).2
    rw [show rawColPresent "price" = (fun r : Row => r.price.isSome) from
      funext fun r => rfl] at hany
    obtain ⟨r, hr, hsome⟩ := List.any_eq_true.mp hany
    rw [hp r hr] at hsome
    simp at hsome
  have hpipe : processPipeline raw = .error "KeyError: price" := by
    simp [processPipeline, cleanData, hcol, bind, Except.bind]
  unfold processFlightData
  rw [if_neg hempty, hpipe]

/-- Witness for C10 at a concrete one-record batch without a price field. -/
theorem missing_price_field_raises_witness :
    (processFlightData none [rowNoPrice]).2 = .error "KeyError: price" :=
  missing_price_field_raises none [rowNoPrice] (by simp)
    (by intro r hr; simp at hr; rw [hr]; rfl)

/-- C3 (corrected): the guarded derivations (day_of_week, hour,
month/season, occupancy/demand_level, peak_hour, is_weekend) are indeed
skipped without error when their source columns are absent — enrichment
succeeds on any batch that has the price, airline and route columns,
whatever else is missing — and, at a batch carrying only those three
fields, the output has exactly the three raw columns plus price_category,
route_distance and price_per_km (every guarded derivation skipped).  The
route_distance derivation, however, is not independent: the claim fails for
it (see the counterexample). -/
theorem guarded_derivations_skip_missing_sources :
    (∀ (st : Option Frame) (raw : List Row),
        (∃ r ∈ raw, r.price.isSome) → (∃ r ∈ raw, r.airline.isSome) →
        (∃ r ∈ raw, r.route.isSome) → ∃ t, (processFlightData st raw).2 = .ok t)
    ∧ (processFlightData none [rowC1, rowC1b]).2.toOption.map
        (fun t => (t.rows.length, t.cols)) =
      some (2, ["price", "airline", "route", "price_category",
                "route_distance", "price_per_km"]) := by
  constructor
  · intro st raw hp ha hr
    exact processFlightData_ok st raw hp ha hr
  · decide

/-- Witness for C3 at a concrete batch. -/
theorem guarded_derivations_skip_missing_sources_witness :
    ∃ t, (processFlightData none [rowC1]).2 = .ok t :=
  guarded_derivations_skip_missing_sources.1 none [rowC1]
    ⟨rowC1, by simp, rfl⟩ ⟨rowC1, by simp, rfl⟩ ⟨rowC1, by simp, rfl⟩

/-- Counterexample to C3 as stated: the route_distance derivation is an
unguarded `df["route"].map(...)`, so a batch with price and airline but no
route field makes enrichment raise `KeyError` instead of skipping the
derivation. -/
theorem missingRouteColumn_raises :
    (processFlightData none [rowNoRoute]).2 = .error "KeyError: route" := by
  decide

/-- C4: the trend estimator returns "insufficient_data" on fewer than two
points, otherwise classifies the closed-form least-squares slope against
the fixed 0.1 threshold; the four series of the claim classify as stated. -/
theorem calculateTrend_classification :
    (∀ s : List ℚ, s.length < 2 → calculateTrend s = "insufficient_data")
    ∧ (∀ s : List ℚ, 2 ≤ s.length →
        calculateTrend s =
          if lsSlope s > mkRat 1 10 then "increasing"
          else if lsSlope s < mkRat (-1) 10 then "decreasing" else "stable")
    ∧ calculateTrend [10, 20, 30, 40] = "increasing"
    ∧ calculateTrend [40, 30, 20, 10] = "decreasing"
    ∧ calculateTrend [20, 20, 20, 20] = "stable"
    ∧ calculateTrend [10] = "insufficient_data" := by
  refine ⟨?_, ?_, by decide, by decide, by decide, by rfl⟩
  · intro s h
    simp [calculateTrend, h]
  · intro s h
    simp [calculateTrend, Nat.not_lt.mpr h]

/-- Witness for C4, applying both universal parts at concrete series. -/
theorem calculateTrend_classification_witness :
    calculateTrend [5] = "insufficient_data" ∧ calculateTrend [1, 2] = "increasing" := by
  constructor
  · exact calculateTrend_classification.1 [5] (by decide)
  · have h := calculateTrend_classification.2.1 [1, 2] (by decide)
    rw [h]
    decide

/-- C5: on the empty table `generate_insights` returns the fixed no-data
sentinel, whose recommendations list is empty, and does not raise. -/
theorem generateInsights_empty_returns_default (f : Frame) (h : f.rows = []) :
    generateInsightsNoKey f = .ok getDefaultInsights ∧
    getDefaultInsights.recommendations = [] := by
  refine ⟨?_, rfl⟩
  simp [generateInsightsNoKey, h]

/-- Witness for C5 at the empty DataFrame. -/
theorem generateInsights_empty_returns_default_witness :
    generateInsightsNoKey emptyFrame = .ok getDefaultInsights ∧
    getDefaultInsights.recommendations = [] :=
  generateInsights_empty_returns_default emptyFrame rfl

/-- Counterexample to C2 as stated: on the empty table the synthesis result
routes to the default sentinel, whose narrative analysis has only the two
keys message and recommendation — the five-key mock schema is absent. -/
theorem emptyTable_aiAnalysis_is_sentinel :
    (generateInsightsNoKey emptyFrame).toOption.map (fun i => i.ai_analysis.keys) =
      some ["message", "recommendation"]
    ∧ "trends" ∉ ["message", "recommendation"] := by
  exact ⟨rfl, by decide⟩

/-- C2 (corrected): for every non-empty table whose synthesis succeeds with
no external credential configured, the narrative analysis inside the result
is the mock schema and carries all five top-level keys trends, pricing,
demand, recommendations and risks (the empty table instead yields the
two-key sentinel; see the counterexample). -/
theorem nonempty_synthesis_aiAnalysis_has_mock_keys (f : Frame) (ins : Insights)
    (hne : f.rows ≠ []) (h : generateInsightsNoKey f = .ok ins) :
    ["trends", "pricing", "demand", "recommendations", "risks"] ⊆ ins.ai_analysis.keys := by
  have hempty : ¬(f.rows.isEmpty = true) := by
    simp [List.isEmpty_iff, hne]
  unfold generateInsightsNoKey at h
  rw [if_neg hempty] at h
  simp only [bind, Except.bind] at h
  cases h1 : summarySection f with
  | error e => rw [h1] at h; exact absurd h (by simp)
  | ok s =>
  rw [h1] at h
  cases h2 : priceInsightsSection f with
  | error e => rw [h2] at h; exact absurd h (by simp)
  | ok p =>
  rw [h2] at h
  cases h3 : demandInsightsSection f with
  | error e => rw [h3] at h; exact absurd h (by simp)
  | ok d =>
  rw [h3] at h
  cases h4 : routeInsightsSection f with
  | error e => rw [h4] at h; exact absurd h (by simp)
  | ok r =>
  rw [h4] at h
  cases h5 : trendInsightsSection f with
  | error e => rw [h5] at h; exact absurd h (by simp)
  | ok t =>
  rw [h5] at h
  cases h6 : recommendationsSection f with
  | error e => rw [h6] at h; exact absurd h (by simp)
  | ok recs =>
  rw [h6] at h
  cases h7 : getAiAnalysisNoKey f with
  | error e => rw [h7] at h; exact absurd h (by simp)
  | ok ai =>
  rw [h7] at h
  simp only [Except.ok.injEq] at h
  have hai : ins.ai_analysis = ai := by rw [← h]
  rw [hai, mockAiAnalysis_keys f ai h7]
  intro x hx
  fin_cases hx <;> simp

/-- Witness for C2 at a concrete fully-featured two-row table. -/
theorem nonempty_synthesis_aiAnalysis_has_mock_keys_witness :
    ∃ ins, generateInsightsNoKey frameFull = .ok ins ∧
      ["trends", "pricing", "demand", "recommendations", "risks"] ⊆ ins.ai_analysis.keys := by
  have hOk : (generateInsightsNoKey frameFull).toOption.isSome = true := by decide
  obtain ⟨ins, hins⟩ : ∃ ins, generateInsightsNoKey frameFull = .ok ins := by
    cases hcase : generateInsightsNoKey frameFull with
    | ok v => exact ⟨v, rfl⟩
    | error e => rw [hcase] at hOk; simp [Except.toOption] at hOk
  exact ⟨ins, hins, nonempty_synthesis_aiAnalysis_has_mock_keys frameFull ins (by decide) hins⟩

/-- C6: over any non-empty table with price, route and airline data, the
recommendations list carries the price alert exactly when the mean price
exceeds 400, the weekend-dominance alert exactly when the is_weekend column
exists and the weekend share exceeds 0.6, one entry per route among the
top-2 most expensive routes, and exactly one best-value-airline entry.
The entries are also identified: the route entries name (in order) a
selection `tops` of route/mean-price pairs of size min 2 #routes, drawn
from the route group means (the permutation conjunct), each named route at
least as expensive as every unnamed one (missing means sorting last); and
the single airline entry is `bestValueRec best bp` where `best` is an
airline whose group mean price `bp` is minimal among all airlines with a
non-missing mean. -/
theorem recommendations_rule_counts (f : Frame) (hne : f.rows ≠ [])
    (hp : "price" ∈ f.cols) (hr : "route" ∈ f.cols) (ha : "airline" ∈ f.cols)
    (hall : ∀ r ∈ f.rows, r.price.isSome)
    (hasA : ∃ r ∈ f.rows, r.airline.isSome) :
    ∃ recs m, recommendationsSection f = .ok recs ∧
      meanOpt (f.rows.map (fun r => r.price)) = some m ∧
      recs.countP (fun r => r.rtype == "price") = (if 400 < m then 1 else 0) ∧
      recs.countP (fun r => r.rtype == "demand") =
        (if "is_weekend" ∈ f.cols ∧ mkRat 3 5 < weekendShareOf f then 1 else 0) ∧
      recs.countP (fun r => r.rtype == "route") =
        min 2 (pivotKeys strLe (fun r => r.route) f.rows).length ∧
      recs.countP (fun r => r.rtype == "airline") = 1 ∧
      (∃ tops rest : List (String × Option ℚ),
        tops.length = min 2 (pivotKeys strLe (fun r => r.route) f.rows).length ∧
        (tops ++ rest).Perm
          (groupMeanBy strLe (fun r => r.route) (fun r => r.price) f.rows) ∧
        (∀ kv ∈ tops, ∀ kw ∈ rest, descNanLast kv.2 kw.2 = true) ∧
        (recs.filter (fun r => r.rtype == "route")).map (fun r => r.title) =
          tops.map (fun kv => "Expensive Route: " ++ kv.1)) ∧
      (∃ best bp,
        (best, some bp) ∈
          groupMeanBy strLe (fun r => r.airline) (fun r => r.price) f.rows ∧
        (∀ kv ∈ groupMeanBy strLe (fun r => r.airline) (fun r => r.price) f.rows,
          ∀ y : ℚ, kv.2 = some y → bp ≤ y) ∧
        recs.filter (fun r => r.rtype == "airline") = [bestValueRec best bp]) := by
  obtain ⟨r0, hr0⟩ := List.exists_mem_of_ne_nil f.rows hne
  have hmean : (meanOpt (f.rows.map (fun r => r.price))).isSome :=
    meanOpt_isSome_of _ r0.price (List.mem_map.mpr ⟨r0, hr0, rfl⟩) (hall r0 hr0)
  obtain ⟨m, hm⟩ := Option.isSome_iff_exists.mp hmean
  obtain ⟨ra, hra, hrasome⟩ := hasA
  obtain ⟨a0, ha0⟩ := Option.isSome_iff_exists.mp hrasome
  have hk0 : a0 ∈ pivotKeys strLe (fun r => r.airline) f.rows :=
    (mem_pivotKeys strLe (fun r => r.airline) f.rows a0).mpr ⟨ra, hra, ha0⟩
  have hpair : (a0, meanOpt ((f.rows.filter (fun r => decide (r.airline = some a0))).map (fun r => r.price))) ∈
      groupMeanBy strLe (fun r => r.airline) (fun r => r.price) f.rows := by
    unfold groupMeanBy
    exact List.mem_map.mpr ⟨a0, hk0, rfl⟩
  have hgrp : ra ∈ f.rows.filter (fun r => decide (r.airline = some a0)) :=
    List.mem_filter.mpr ⟨hra, by simp [ha0]⟩
  have hpairSome :
      (meanOpt ((f.rows.filter (fun r => decide (r.airline = some a0))).map (fun r => r.price))).isSome :=
    meanOpt_isSome_of _ ra.price (List.mem_map.mpr ⟨ra, hgrp, rfl⟩) (hall ra hra)
  obtain ⟨pr, hpr⟩ := Option.isSome_iff_exists.mp
    (foldlIdx_isSome (groupMeanBy strLe (fun r => r.airline) (fun r => r.price) f.rows)
      none (Or.inr ⟨_, hpair, hpairSome⟩))
  have hbest : idxminOpt (groupMeanBy strLe (fun r => r.airline) (fun r => r.price) f.rows) =
      some pr.1 := by
    unfold idxminOpt
    rw [hpr]
    rfl
  obtain ⟨hA1, hA2, -⟩ := idxminFold_spec
    (groupMeanBy strLe (fun r => r.airline) (fun r => r.price) f.rows) none pr.1 pr.2
    (by rw [hpr, Prod.mk.eta])
  have hmemA : (pr.1, some pr.2) ∈
      groupMeanBy strLe (fun r => r.airline) (fun r => r.price) f.rows :=
    hA1.resolve_left (by simp)
  have hmin : (minOpt ((groupMeanBy strLe (fun r => r.airline) (fun r => r.price) f.rows).map
      (fun kv => kv.2))).isSome :=
    minOpt_isSome _ _ (List.mem_map.mpr ⟨_, hpair, rfl⟩) hpairSome
  obtain ⟨bp, hbp⟩ := Option.isSome_iff_exists.mp hmin
  obtain ⟨hM1, hM2⟩ := minOpt_spec _ bp hbp
  obtain ⟨kvb, hkvb, hkvb2⟩ := List.mem_map.mp hM1
  have hle1 : pr.2 ≤ bp := hA2 kvb hkvb bp hkvb2
  have hle2 : bp ≤ pr.2 := hM2 pr.2 (List.mem_map.mpr ⟨(pr.1, some pr.2), hmemA, rfl⟩)
  have hpb : bp = pr.2 := le_antisymm hle2 hle1
  obtain ⟨W, hW, hWd, hWp, hWr, hWa⟩ := weekendRecsOf_spec f hne
  have hsec : recommendationsSection f =
      .ok (priceRecsOf (some m) ++ W ++ routeRecsOf f ++ [bestValueRec pr.1 bp]) := by
    unfold recommendationsSection
    rw [if_neg (not_not_intro hp)]
    simp only [bind, Except.bind, hm, hW]
    rw [if_neg (not_not_intro hr), if_neg (not_not_intro ha), hbest, hbp]
  obtain ⟨hPp, hPd, hPr, hPa⟩ := priceRecsOf_counts m
  obtain ⟨hRr, hRp, hRd, hRa⟩ := routeRecsOf_counts f
  have hPfR : (priceRecsOf (some m)).filter (fun r => r.rtype == "route") = [] :=
    List.filter_eq_nil_iff.mpr (List.countP_eq_zero.mp hPr)
  have hPfA : (priceRecsOf (some m)).filter (fun r => r.rtype == "airline") = [] :=
    List.filter_eq_nil_iff.mpr (List.countP_eq_zero.mp hPa)
  have hWfR : W.filter (fun r => r.rtype == "route") = [] :=
    List.filter_eq_nil_iff.mpr (List.countP_eq_zero.mp hWr)
  have hWfA : W.filter (fun r => r.rtype == "airline") = [] :=
    List.filter_eq_nil_iff.mpr (List.countP_eq_zero.mp hWa)
  have hRfA : (routeRecsOf f).filter (fun r => r.rtype == "airline") = [] :=
    List.filter_eq_nil_iff.mpr (List.countP_eq_zero.mp hRa)
  have hRfR : (routeRecsOf f).filter (fun r => r.rtype == "route") = routeRecsOf f := by
    apply List.filter_eq_self.mpr
    intro rec hmem
    unfold routeRecsOf at hmem
    obtain ⟨kv, -, hkv⟩ := List.mem_map.mp hmem
    rw [← hkv]
    rfl
  have hBfR : ([bestValueRec pr.1 bp].filter (fun r => r.rtype == "route")) = [] := rfl
  have hBfA : ([bestValueRec pr.1 bp].filter (fun r => r.rtype == "airline")) =
      [bestValueRec pr.1 bp] := rfl
  have hRtitles : (routeRecsOf f).map (fun r => r.title) =
      ((sortPairsDesc (groupMeanBy strLe (fun r => r.route) (fun r => r.price) f.rows)).take 2).map
        (fun kv => "Expensive Route: " ++ kv.1) := by
    unfold routeRecsOf
    rw [List.map_map]
    rfl
  refine ⟨_, m, hsec, hm, ?_, ?_, ?_, ?_, ?_, ?_⟩
  · simp [List.countP_append, hPp, hPd, hPr, hPa, hWd, hWp, hWr, hWa, hRr, hRp, hRd, hRa,
      List.countP_cons, bestValueRec]
  · simp [List.countP_append, hPp, hPd, hPr, hPa, hWd, hWp, hWr, hWa, hRr, hRp, hRd, hRa,
      List.countP_cons, bestValueRec]
  · simp [List.countP_append, hPp, hPd, hPr, hPa, hWd, hWp, hWr, hWa, hRr, hRp, hRd, hRa,
      List.countP_cons, bestValueRec]
  · simp [List.countP_append, hPp, hPd, hPr, hPa, hWd, hWp, hWr, hWa, hRr, hRp, hRd, hRa,
      List.countP_cons, bestValueRec]
  · refine ⟨(sortPairsDesc (groupMeanBy strLe (fun r => r.route) (fun r => r.price) f.rows)).take 2,
      (sortPairsDesc (groupMeanBy strLe (fun r => r.route) (fun r => r.price) f.rows)).drop 2,
      ?_, ?_, ?_, ?_⟩
    · rw [List.length_take, sortPairsDesc, length_insSort]
      unfold groupMeanBy
      rw [List.length_map]
    · rw [List.take_append_drop]
      exact perm_insSort _ _
    · intro kv hkv kw hkw
      have hpw : (sortPairsDesc (groupMeanBy strLe (fun r => r.route) (fun r => r.price) f.rows)).Pairwise
          (fun a b => descNanLast a.2 b.2 = true) :=
        pairwise_insSort (fun a b => descNanLast a.2 b.2)
          (fun a b => descNanLast_total a.2 b.2)
          (fun a b c h1 h2 => descNanLast_trans a.2 b.2 c.2 h1 h2)
          (groupMeanBy strLe (fun r => r.route) (fun r => r.price) f.rows)
      rw [← List.take_append_drop 2
        (sortPairsDesc (groupMeanBy strLe (fun r => r.route) (fun r => r.price) f.rows))] at hpw
      exact (List.pairwise_append.mp hpw).2.2 kv hkv kw hkw
    · rw [List.filter_append, List.filter_append, List.filter_append,
        hPfR, hWfR, hRfR, hBfR]
      simp only [List.nil_append, List.append_nil]
      exact hRtitles
  · refine ⟨pr.1, bp, ?_, ?_, ?_⟩
    · rw [hpb]
      exact hmemA
    · intro kv hkv y hy
      exact hM2 y (List.mem_map.mpr ⟨kv, hkv, hy⟩)
    · rw [List.filter_append, List.filter_append, List.filter_append,
        hPfA, hWfA, hRfA, hBfA]
      simp

/-- Witness for C6 at the particular table of the claim: mean price 500 and
no weekend flights, giving exactly one price alert and no weekend alert. -/
theorem recommendations_rule_counts_witness :
    (∃ recs m, recommendationsSection frameC6 = .ok recs ∧
      meanOpt (frameC6.rows.map (fun r => r.price)) = some m ∧
      recs.countP (fun r => r.rtype == "price") = (if 400 < m then 1 else 0) ∧
      recs.countP (fun r => r.rtype == "demand") =
        (if "is_weekend" ∈ frameC6.cols ∧ mkRat 3 5 < weekendShareOf frameC6 then 1 else 0) ∧
      recs.countP (fun r => r.rtype == "route") =
        min 2 (pivotKeys strLe (fun r => r.route) frameC6.rows).length ∧
      recs.countP (fun r => r.rtype == "airline") = 1 ∧
      (∃ tops rest : List (String × Option ℚ),
        tops.length = min 2 (pivotKeys strLe (fun r => r.route) frameC6.rows).length ∧
        (tops ++ rest).Perm
          (groupMeanBy strLe (fun r => r.route) (fun r => r.price) frameC6.rows) ∧
        (∀ kv ∈ tops, ∀ kw ∈ rest, descNanLast kv.2 kw.2 = true) ∧
        (recs.filter (fun r => r.rtype == "route")).map (fun r => r.title) =
          tops.map (fun kv => "Expensive Route: " ++ kv.1)) ∧
      (∃ best bp,
        (best, some bp) ∈
          groupMeanBy strLe (fun r => r.airline) (fun r => r.price) frameC6.rows ∧
        (∀ kv ∈ groupMeanBy strLe (fun r => r.airline) (fun r => r.price) frameC6.rows,
          ∀ y : ℚ, kv.2 = some y → bp ≤ y) ∧
        recs.filter (fun r => r.rtype == "airline") = [bestValueRec best bp]))
    ∧ meanOpt (frameC6.rows.map (fun r => r.price)) = some 500
    ∧ (∀ r ∈ frameC6.rows, r.is_weekend = some false)
    ∧ (recommendationsSection frameC6).toOption.map (fun recs =>
        (recs.countP (fun r => r.rtype == "price"),
         recs.countP (fun r => r.rtype == "demand"))) = some (1, 0) := by
  refine ⟨?_, by decide, by decide, by decide⟩
  exact recommendations_rule_counts frameC6 (by decide) (by decide) (by decide)
    (by decide) (by decide) ⟨frameC6.rows.getD 0 {}, by decide, by decide⟩

/-- C7: the pivoted day axis of the (day, hour) flight-count heatmap is in
canonical Monday..Sunday order (a sublist of the canonical list) and
contains exactly the day names present in the data; in particular a table
with records only on a Tuesday and a Friday yields the axis
[Tuesday, Friday]. -/
theorem heatmap_day_axis_canonical :
    (∀ f : Frame,
      ((reindexDays (dayHourCountPivot f)).rowLabels.Sublist dayNames) ∧
      ∀ d : String, d ∈ (reindexDays (dayHourCountPivot f)).rowLabels ↔
        ∃ r ∈ f.rows, r.date.map dayName = some d)
    ∧ (reindexDays (dayHourCountPivot frameTF)).rowLabels = ["Tuesday", "Friday"] := by
  refine ⟨fun f => ⟨?_, fun d => ?_⟩, by decide⟩
  · show (dayNames.filter (fun d => decide (d ∈ (dayHourCountPivot f).rowLabels))).Sublist dayNames
    exact List.filter_sublist dayNames
  · show d ∈ dayNames.filter (fun d => decide (d ∈ (dayHourCountPivot f).rowLabels)) ↔ _
    rw [List.mem_filter]
    rw [dayHourCountPivot_rowLabels]
    constructor
    · rintro ⟨-, hmem⟩
      have := (mem_pivotKeptRows_count f.rows (fun r => r.price)
        (fun r => r.date.map dayName) (fun r => r.date.map (fun dd => dd.hour))
        strLe zLe d).mp (by simpa using hmem)
      obtain ⟨r, hr, h1, -⟩ := this
      exact ⟨r, hr, h1⟩
    · rintro ⟨r, hr, h1⟩
      obtain ⟨dt, hdt⟩ : ∃ dt, r.date = some dt := by
        cases hcase : r.date with
        | none => rw [hcase] at h1; simp at h1
        | some dt => exact ⟨dt, rfl⟩
      have hd : d = dayName dt := by
        rw [hdt] at h1
        simpa using h1.symm
      refine ⟨by rw [hd]; exact dayName_mem dt, ?_⟩
      simp only [decide_eq_true_eq]
      exact (mem_pivotKeptRows_count f.rows (fun r => r.price)
        (fun r => r.date.map dayName) (fun r => r.date.map (fun dd => dd.hour))
        strLe zLe d).mpr ⟨r, hr, h1, by simp [hdt]⟩

/-- C8 (corrected): the weekend/weekday view is produced with its rows
relabeled [Weekday, Weekend] exactly when both boolean classes actually
occur (each with an hour); the concrete conjuncts run the full view
builder on a table having both classes. -/
theorem weekendView_labels_iff_both_classes :
    (∀ f : Frame,
      ((∃ r ∈ f.rows, r.is_weekend = some false ∧ r.hour.isSome) ∧
       (∃ r ∈ f.rows, r.is_weekend = some true ∧ r.hour.isSome)) ↔
      (∃ m, weekendViewRelabel f = .ok m ∧ m.rowLabels = ["Weekday", "Weekend"]))
    ∧ (heatmapViews frameBothW).toOption.map (fun l => l.map Prod.fst) =
        some ["weekend_analysis"]
    ∧ ((heatmapViews frameBothW).toOption.bind
        (fun l => l.lookup "weekend_analysis")).map PivotM.rowLabels =
        some ["Weekday", "Weekend"] := by
  refine ⟨weekendViewRelabel_ok_iff, by decide, by decide⟩

/-- Counterexample to C8 as stated: a table whose flights are all on
weekends has a single boolean class, the relabeling raises `ValueError`,
and `create_demand_heatmap` falls back — no weekend/weekday view is
produced at all. -/
theorem weekendView_single_class_falls_back :
    heatmapViews frameOnlyW = .error "ValueError: Length mismatch"
    ∧ createDemandHeatmap frameOnlyW = .fallbackEmpty := by
  constructor
  · decide
  · rfl
